import Mathlib

/-!
Verification of the deterministic prompt-to-design synthesis engine of the
adgenesis repository, as implemented in `ml_pipeline/creative_director.py`.

The Python source is shallowly embedded: machine integers become `Int`
(Python integers are unbounded, and the `%` operator on a positive modulus
agrees with `Int.emod`), floats become `Rat` (all arithmetic in the engine is
ratios of small integers; only format-level properties are proved about
colors, which are insensitive to float rounding), strings become `String`,
dicts with a fixed key set become structures, and dicts used as ordered maps
become association lists in insertion order (Python dicts preserve insertion
order).

Two sources of ambient nondeterminism in the Python code are modelled as
explicit parameters:
* `ph : String → Int` stands for the builtin `hash` on strings, which CPython
  salts per process (PYTHONHASHSEED); `_invent_layout` passes
  `hash(zone_name)` as a seeding offset.
* `σ : List String → List String` stands for the iteration order of
  `list(set(...))` in `_extract_unique_keywords`, which likewise depends on
  the per-process string hash salt.  It is applied to the first-occurrence
  deduplication of the keyword list.

The SHA-256 based seed `int(hashlib.sha256(prompt.encode()).hexdigest(), 16)`
comes from the external `hashlib` library, not from this repository; seeds are
passed as explicit integer parameters, and for concrete prompts the actual
SHA-256 value is supplied as a literal (noted at each use).
-/

namespace CreativeDirector

/-! ## Seeded pseudo-random primitives (`_seeded_choice`, `_seeded_float`, `_seeded_int`) -/

/-- Embeds `CreativeDirector._seeded_choice`: `items[(seed + offset) % len(items)]`,
returning `None` (here `none`) for an empty list. -/
def seededChoice {α : Type} (seed : ℤ) (items : List α) (offset : ℤ) : Option α :=
  if items.isEmpty then none
  else items.get? ((seed + offset).emod items.length).toNat

/-- Embeds `CreativeDirector._seeded_float`: `((seed + offset) % 1000) / 1000`. -/
def seededFloat (seed offset : ℤ) : ℚ :=
  ((seed + offset).emod 1000 : ℚ) / 1000

/-- Embeds `CreativeDirector._seeded_int`:
`min_val + ((seed + offset) % (max_val - min_val + 1))`. -/
def seededInt (seed minVal maxVal offset : ℤ) : ℤ :=
  minVal + (seed + offset).emod (maxVal - minVal + 1)

/-- Total version of `_seeded_choice` for the nonempty literal phrase banks of
`creative_director.py` (at every call site the list is a nonempty literal, so
the `None` branch of `_seeded_choice` is unreachable; `""` is a formal default). -/
def seededPick (seed : ℤ) (items : List String) (offset : ℤ) : String :=
  (seededChoice seed items offset).getD ""

/-! ## Python string primitives used by `PromptAnalyzer` -/

/-- Python `needle in hay` on strings: list-of-characters infix test. -/
def listPrefixOf : List Char → List Char → Bool
  | [], _ => true
  | _ :: _, [] => false
  | a :: as, b :: bs => a = b && listPrefixOf as bs

/-- Helper for `pyIn`: does `n` occur as a contiguous sublist? -/
def listInfixOf (n : List Char) : List Char → Bool
  | [] => listPrefixOf n []
  | c :: cs => listPrefixOf n (c :: cs) || listInfixOf n cs

/-- Python `needle in hay` for strings. -/
def pyIn (needle hay : String) : Bool :=
  listInfixOf needle.data hay.data

/-- Accumulating splitter behind `pySplit` (structural recursion over the
character list; the accumulator holds the current word reversed). -/
def pySplitAux : List Char → List Char → List String
  | [], acc => if acc.isEmpty then [] else [String.mk acc.reverse]
  | c :: cs, acc =>
    if c.isWhitespace then
      (if acc.isEmpty then [] else [String.mk acc.reverse]) ++ pySplitAux cs []
    else pySplitAux cs (c :: acc)

/-- Python `str.split()` with no argument: split on whitespace runs, dropping
empty pieces. -/
def pySplit (s : String) : List String :=
  pySplitAux s.data []

/-- ASCII uppercase test, the `[A-Z]` character class of the source regexes. -/
def isUpperA (c : Char) : Bool := 'A' ≤ c && c ≤ 'Z'

/-- ASCII lowercase test, the `[a-z]` character class of the source regexes. -/
def isLowerA (c : Char) : Bool := 'a' ≤ c && c ≤ 'z'

/-- ASCII letter test, the `[a-zA-Z]` character class of the source regexes. -/
def isLetterA (c : Char) : Bool := isUpperA c || isLowerA c

/-- ASCII digit test, the `\d` character class of the source regexes. -/
def isDigitA (c : Char) : Bool := '0' ≤ c && c ≤ '9'

/-- Word character, the `\w` class backing the `\b` boundaries of the regexes. -/
def isWordChar (c : Char) : Bool := isLetterA c || isDigitA c || c = '_'

/-- Whitespace, the `\s` class of the source regexes. -/
def isWsA (c : Char) : Bool :=
  c = ' ' || c = '\t' || c = '\n' || c = '\r' || c = '\x0b' || c = '\x0c'

/-- Word boundary at the start of the remaining input: the next character is
absent or not a word character. -/
def atBoundary : List Char → Bool
  | [] => true
  | c :: _ => !isWordChar c

/-- Python `str.capitalize()`: first character uppercased, the rest lowercased. -/
def pyCapitalize (s : String) : String :=
  match s.data with
  | [] => ""
  | c :: cs => String.mk (c.toUpper :: cs.map Char.toLower)

/-- Python `str.upper()`. -/
def pyUpper (s : String) : String := String.mk (s.data.map Char.toUpper)

/-- Python `str.lower()`. -/
def pyLower (s : String) : String := String.mk (s.data.map Char.toLower)

/-- The apostrophe character, written by code to satisfy source-file hygiene. -/
def quoteChar : Char := Char.ofNat 39

/-- Dash class `[-–—]` of the brand-name regexes. -/
def isDash (c : Char) : Bool := c = '-' || c = '–' || c = '—'

/-- Match a literal character sequence at the head of the input, returning the
rest on success. -/
def litPrefix : List Char → List Char → Option (List Char)
  | [], rest => some rest
  | k :: ks, c :: cs => if c = k then litPrefix ks cs else none
  | _ :: _, [] => none

/-- Case-insensitive variant of `litPrefix` (the needle is given lowercase). -/
def ciPrefix : List Char → List Char → Option (List Char)
  | [], rest => some rest
  | k :: ks, c :: cs => if c.toLower = k then ciPrefix ks cs else none
  | _ :: _, [] => none

/-- Generic `re.search`: try the position matcher at every start position,
left to right (greedy subpattern matchers below are arranged so that no
cross-position backtracking beyond what they implement can occur). -/
def searchStr (m : List Char → Option String) : List Char → Option String
  | [] => m []
  | c :: cs =>
    match m (c :: cs) with
    | some r => some r
    | none => searchStr m cs

/-- Match `[A-Z][a-zA-Z]+` at the head (case-sensitive), maximal munch. -/
def matchCapWordCS (cs : List Char) : Option (List Char × List Char) :=
  match cs with
  | c :: cs2 =>
    if isUpperA c then
      match cs2.span isLetterA with
      | (run, r) => if run.isEmpty then none else some (c :: run, r)
    else none
  | [] => none

/-- Match `[A-Z][a-z]+` at the head (strict case classes), maximal munch. -/
def matchCapLowWord (cs : List Char) : Option (List Char × List Char) :=
  match cs with
  | c :: cs2 =>
    if isUpperA c then
      match cs2.span isLowerA with
      | (run, r) => if run.isEmpty then none else some (c :: run, r)
    else none
  | [] => none

/-- Match a case-insensitive word `[A-Z][a-zA-Z]+` under `re.IGNORECASE`
(both classes collapse to any ASCII letter), maximal munch. -/
def matchWordCI (cs : List Char) : Option (List Char × List Char) :=
  match cs with
  | c :: cs2 =>
    if isLetterA c then
      match cs2.span isLetterA with
      | (run, r) => if run.isEmpty then none else some (c :: run, r)
    else none
  | [] => none

/-! ### `PromptAnalyzer._extract_brand_name` -/

/-- Position matcher for pattern 1, `([A-Z][a-zA-Z]+\s+[A-Z][a-zA-Z]+)\s*[-–—]`.
The captured group starts and ends with a letter, so Python `.strip()` is a
no-op on it. -/
def matchP1At (cs : List Char) : Option String :=
  match matchCapWordCS cs with
  | none => none
  | some (w1, r1) =>
    match r1.span isWsA with
    | (ws, r2) =>
      if ws.isEmpty then none else
      match matchCapWordCS r2 with
      | none => none
      | some (w2, r3) =>
        match (r3.span isWsA).2 with
        | e :: _ => if isDash e then some (String.mk (w1 ++ ws ++ w2)) else none
        | [] => none

/-- Keyword list of pattern 2. -/
def p2Keywords : List String :=
  ["shop", "store", "cafe", "brand", "studio", "gym", "salon", "restaurant",
   "electronics", "fashion"]

/-- Keyword tail of the inner `full_match` regex of pattern 2. -/
def p2bKeywords : List String := ["shop", "store", "cafe", "brand"]

/-- Does one of the keywords match case-insensitively here, followed by a word
boundary? -/
def matchKwB (kws : List String) (cs : List Char) : Bool :=
  kws.any (fun kw =>
    match ciPrefix kw.data cs with
    | some rest => atBoundary rest
    | none => false)

/-- Position matcher for pattern 2 (with `re.IGNORECASE`):
`([A-Z][a-zA-Z]+(?:\s+[A-Z][a-zA-Z]+)?)\s+(?:shop|store|cafe|...)\b`.
The greedy optional second word is tried first, then the one-word fallback. -/
def matchP2At (cs : List Char) : Option String :=
  match matchWordCI cs with
  | none => none
  | some (w1, r1) =>
    let two : Option String :=
      match r1.span isWsA with
      | (ws, r2) =>
        if ws.isEmpty then none else
        match matchWordCI r2 with
        | none => none
        | some (w2, r3) =>
          match r3.span isWsA with
          | (ws2, r4) =>
            if ws2.isEmpty then none
            else if matchKwB p2Keywords r4 then some (String.mk (w1 ++ ws ++ w2))
            else none
    match two with
    | some s => some s
    | none =>
      match r1.span isWsA with
      | (ws, r2) =>
        if ws.isEmpty then none
        else if matchKwB p2Keywords r2 then some (String.mk w1)
        else none

/-- Position matcher for the inner `full_match` regex of pattern 2
(`re.IGNORECASE`): `([A-Z][a-zA-Z]+\s+[A-Z][a-zA-Z]+)\s*(?:[-–—]|shop|store|cafe|brand)`. -/
def matchP2bAt (cs : List Char) : Option String :=
  match matchWordCI cs with
  | none => none
  | some (w1, r1) =>
    match r1.span isWsA with
    | (ws, r2) =>
      if ws.isEmpty then none else
      match matchWordCI r2 with
      | none => none
      | some (w2, r3) =>
        let r4 := (r3.span isWsA).2
        let dashHere : Bool :=
          match r4 with
          | e :: _ => isDash e
          | [] => false
        if dashHere || p2bKeywords.any (fun kw => (ciPrefix kw.data r4).isSome)
        then some (String.mk (w1 ++ ws ++ w2))
        else none

/-- Position matcher for pattern 3 (case-sensitive):
`(?:named|called)\s+["\x27]?([A-Z][a-zA-Z]+(?:\s+[A-Z][a-zA-Z]+)?)`. -/
def matchP3At (cs : List Char) : Option String :=
  let after : Option (List Char) :=
    match litPrefix "named".data cs with
    | some r => some r
    | none => litPrefix "called".data cs
  match after with
  | none => none
  | some r1 =>
    match r1.span isWsA with
    | (ws, r2) =>
      if ws.isEmpty then none else
      let r3 :=
        match r2 with
        | q :: qs => if q = '"' || q = quoteChar then qs else r2
        | [] => r2
      match matchCapWordCS r3 with
      | none => none
      | some (w1, r4) =>
        match r4.span isWsA with
        | (ws2, r5) =>
          if ws2.isEmpty then some (String.mk w1) else
          match matchCapWordCS r5 with
          | some (w2, _) => some (String.mk (w1 ++ ws2 ++ w2))
          | none => some (String.mk w1)

/-- Pattern 4, anchored at the start of the prompt:
`^([A-Z][a-zA-Z]+(?:\s+[A-Z][a-zA-Z]+)?)\s*[-–—]`; greedy optional second word
with one-word backtracking fallback. -/
def matchP4 (cs : List Char) : Option String :=
  match matchCapWordCS cs with
  | none => none
  | some (w1, r1) =>
    let two : Option String :=
      match r1.span isWsA with
      | (ws, r2) =>
        if ws.isEmpty then none else
        match matchCapWordCS r2 with
        | none => none
        | some (w2, r3) =>
          match (r3.span isWsA).2 with
          | e :: _ => if isDash e then some (String.mk (w1 ++ ws ++ w2)) else none
          | [] => none
    match two with
    | some s => some s
    | none =>
      match (r1.span isWsA).2 with
      | e :: _ => if isDash e then some (String.mk w1) else none
      | [] => none

/-- Position matcher for pattern 5, `\b([A-Z][a-z]+(?:\s+[A-Z][a-z]+)?)\b`
(the leading boundary is checked by the caller); greedy two-word attempt with
one-word fallback, each requiring a trailing boundary. -/
def matchCapPairAt (cs : List Char) : Option (List Char × List Char) :=
  match matchCapLowWord cs with
  | none => none
  | some (one, r1) =>
    let two : Option (List Char × List Char) :=
      match r1.span isWsA with
      | (ws, r2) =>
        if ws.isEmpty then none else
        match matchCapLowWord r2 with
        | none => none
        | some (w2, r3) =>
          if atBoundary r3 then some (one ++ ws ++ w2, r3) else none
    match two with
    | some p => some p
    | none => if atBoundary r1 then some (one, r1) else none

/-- The `re.findall` loop for pattern 5, tracking whether the previous
character was a word character (for the leading `\b`).  Fuel is the input
length; every step consumes at least one character. -/
def capPairsAux : ℕ → Bool → List Char → List String
  | 0, _, _ => []
  | _ + 1, _, [] => []
  | n + 1, prevW, c :: cs =>
    if !prevW && isUpperA c then
      match matchCapPairAt (c :: cs) with
      | some (m, rest) => String.mk m :: capPairsAux n true rest
      | none => capPairsAux n (isWordChar c) cs
    else capPairsAux n (isWordChar c) cs

/-- All pattern-5 matches in the prompt, in order. -/
def findCapPairs (s : String) : List String :=
  capPairsAux (s.data.length + 1) false s.data

/-- The stop-list of pattern 5 (`common` in `_extract_brand_name`). -/
def brandCommonWords : List String :=
  ["The", "And", "For", "New", "Best", "Top", "Your", "Our", "Get", "Buy",
   "Shop", "Now", "Today", "Delhi", "Mumbai", "India", "Indian"]

/-- Embeds `PromptAnalyzer._extract_brand_name`: patterns 1-4 in priority
order, then the filtered pattern-5 candidates. -/
def extractBrandName (prompt : String) : Option String :=
  match searchStr matchP1At prompt.data with
  | some m => some m
  | none =>
  match searchStr matchP2At prompt.data with
  | some name =>
    (match searchStr matchP2bAt prompt.data with
     | some full => some full
     | none => some name)
  | none =>
  match searchStr matchP3At prompt.data with
  | some m => some m
  | none =>
  match matchP4 prompt.data with
  | some m => some m
  | none =>
    let caps := findCapPairs prompt
    let brands := caps.filter (fun c => !brandCommonWords.contains c && c.length > 2)
    brands.head?

/-! ### `PromptAnalyzer._extract_offer` and the other extractors -/

/-- Integer value of a digit string, Python `int(group)` for `\d+` captures. -/
def digitsToInt (s : String) : ℤ :=
  s.data.foldl (fun a c => a * 10 + ((c.toNat : ℤ) - 48)) 0

/-- Position matcher for `(\d+)\s*%\s*(?:off|discount)?` (the optional tail
never constrains the match); returns the digit capture. -/
def matchPctAt (cs : List Char) : Option String :=
  match cs with
  | c :: cs2 =>
    if isDigitA c then
      match cs2.span isDigitA with
      | (run, r1) =>
        match (r1.span isWsA).2 with
        | e :: _ => if e = '%' then some (String.mk (c :: run)) else none
        | [] => none
    else none
  | [] => none

/-- Position matcher for `(?:rs\.?|₹|inr)\s*(\d+)\s*(?:off|discount)`; returns
the digit capture.  The alternatives start with distinct characters, and
the `rs\.?` and `rs` paths fail or succeed together downstream, so no
cross-alternative backtracking is needed. -/
def matchFlatAt (cs : List Char) : Option String :=
  let afterCur : Option (List Char) :=
    match litPrefix "rs.".data cs with
    | some r => some r
    | none =>
    match litPrefix "rs".data cs with
    | some r => some r
    | none =>
    match litPrefix "₹".data cs with
    | some r => some r
    | none => litPrefix "inr".data cs
  match afterCur with
  | none => none
  | some r0 =>
    match (r0.span isWsA).2 with
    | d :: ds =>
      if isDigitA d then
        match ds.span isDigitA with
        | (run, r1) =>
          let r2 := (r1.span isWsA).2
          if (litPrefix "off".data r2).isSome || (litPrefix "discount".data r2).isSome
          then some (String.mk (d :: run))
          else none
      else none
    | [] => none

/-- Position matcher for `free\s+(\w+)`; returns the word capture. -/
def matchFreeAt (cs : List Char) : Option String :=
  match litPrefix "free".data cs with
  | none => none
  | some r1 =>
    match r1.span isWsA with
    | (ws, r2) =>
      if ws.isEmpty then none else
      match r2 with
      | c :: cs2 =>
        if isWordChar c then
          match cs2.span isWordChar with
          | (run, _) => some (String.mk (c :: run))
        else none
      | [] => none

/-- Offer value: the Python dict stores an `int`, a `str`, or `None`. -/
inductive OfferVal where
  | ival (n : ℤ)
  | sval (s : String)
  deriving DecidableEq

/-- Offer details dict `{"type", "value", "text"}`. -/
structure Offer where
  kind : String
  value : Option OfferVal
  text : String
  deriving DecidableEq

/-- Embeds `PromptAnalyzer._extract_offer` on the lowercased prompt:
percentage, flat-currency, freebie, generic sale, in priority order. -/
def extractOffer (pl : String) : Option Offer :=
  match searchStr matchPctAt pl.data with
  | some d => some ⟨"percentage", some (OfferVal.ival (digitsToInt d)), d ++ "% OFF"⟩
  | none =>
  match searchStr matchFlatAt pl.data with
  | some d => some ⟨"flat", some (OfferVal.ival (digitsToInt d)), "₹" ++ d ++ " OFF"⟩
  | none =>
  if pyIn "free" pl then
    match searchStr matchFreeAt pl.data with
    | some w => some ⟨"freebie", some (OfferVal.sval w), "FREE " ++ pyUpper w⟩
    | none => if pyIn "sale" pl then some ⟨"sale", none, "SALE"⟩ else none
  else
    if pyIn "sale" pl then some ⟨"sale", none, "SALE"⟩ else none

/-- Position matcher for `(?:in|at|near|from)\s+([A-Z][a-z]+(?:\s+[A-Z][a-z]+)?)`
(the four literals start with distinct characters). -/
def matchLocAt (cs : List Char) : Option String :=
  let after : Option (List Char) :=
    match litPrefix "in".data cs with
    | some r => some r
    | none =>
    match litPrefix "at".data cs with
    | some r => some r
    | none =>
    match litPrefix "near".data cs with
    | some r => some r
    | none => litPrefix "from".data cs
  match after with
  | none => none
  | some r1 =>
    match r1.span isWsA with
    | (ws, r2) =>
      if ws.isEmpty then none else
      match matchCapLowWord r2 with
      | none => none
      | some (w1, r3) =>
        match r3.span isWsA with
        | (ws2, r4) =>
          if ws2.isEmpty then some (String.mk w1) else
          match matchCapLowWord r4 with
          | some (w2, _) => some (String.mk (w1 ++ ws2 ++ w2))
          | none => some (String.mk w1)

/-- Stop words of the locality extractor. -/
def locCommonWords : List String := ["The", "Your", "Our", "Best", "New"]

/-- The fixed place-name gazetteer. -/
def indianCities : List String :=
  ["Mumbai", "Delhi", "Bangalore", "Chennai", "Kolkata", "Hyderabad", "Pune",
   "Ahmedabad", "Jaipur", "Lucknow"]

/-- Embeds `PromptAnalyzer._extract_locality`. -/
def extractLocality (prompt pl : String) : Option String :=
  let cityScan : Option String :=
    (indianCities.filter (fun c => pyIn (pyLower c) pl)).head?
  match searchStr matchLocAt prompt.data with
  | some place => if !locCommonWords.contains place then some place else cityScan
  | none => cityScan

/-- Position matcher for the value-proposition patterns
`lit\s+(\w+)` or, with `twoWords`, `lit\s+(\w+(?:\s+\w+)?)`; returns
`group(0)`, the whole match including the literal. -/
def matchValueAt (lit : String) (twoWords : Bool) (cs : List Char) : Option String :=
  match litPrefix lit.data cs with
  | none => none
  | some r1 =>
    match r1.span isWsA with
    | (ws, r2) =>
      if ws.isEmpty then none else
      match r2 with
      | c :: cs2 =>
        if isWordChar c then
          match cs2.span isWordChar with
          | (run, r3) =>
            let one := lit ++ String.mk (ws ++ c :: run)
            if twoWords then
              match r3.span isWsA with
              | (ws2, r4) =>
                if ws2.isEmpty then some one else
                match r4 with
                | d :: ds =>
                  if isWordChar d then
                    match ds.span isWordChar with
                    | (run2, _) => some (one ++ String.mk (ws2 ++ d :: run2))
                  else some one
                | [] => some one
            else some one
        else none
      | [] => none

/-- Embeds `PromptAnalyzer._extract_value_prop`: the five patterns in order. -/
def extractValueProp (pl : String) : Option String :=
  match searchStr (matchValueAt "best" true) pl.data with
  | some m => some m
  | none =>
  match searchStr (matchValueAt "quality" false) pl.data with
  | some m => some m
  | none =>
  match searchStr (matchValueAt "affordable" false) pl.data with
  | some m => some m
  | none =>
  match searchStr (matchValueAt "trusted" false) pl.data with
  | some m => some m
  | none => searchStr (matchValueAt "premium" false) pl.data

/-- Existence of a `lit\s+(\w+)` match, for `_find_differentiators`. -/
def searchLitWsWord (lit : String) (pl : String) : Bool :=
  (searchStr (matchValueAt lit false) pl.data).isSome

/-- Embeds `PromptAnalyzer._find_differentiators` (appends in table order). -/
def findDifferentiators (pl : String) : List String :=
  (if searchLitWsWord "only" pl then ["exclusivity"] else []) ++
  (if searchLitWsWord "first" pl then ["pioneering"] else []) ++
  (if searchLitWsWord "best" pl then ["quality"] else []) ++
  (if searchLitWsWord "largest" pl then ["scale"] else []) ++
  (if pyIn "trusted" pl then ["reliability"] else []) ++
  (if pyIn "certified" pl then ["credibility"] else []) ++
  (if pyIn "authentic" pl then ["genuineness"] else []) ++
  (if pyIn "original" pl then ["authenticity"] else [])

/-! ### Keyword extraction (`_extract_unique_keywords`) -/

/-- Scanner for `\b[a-zA-Z]{3,}\b` over the lowercased prompt: maximal letter
runs flanked by word boundaries, of length at least 3.  Fuel is the input
length. -/
def letterRunsAux : ℕ → Bool → List Char → List String
  | 0, _, _ => []
  | _ + 1, _, [] => []
  | n + 1, prevW, c :: cs =>
    if !prevW && isLetterA c then
      match cs.span isLetterA with
      | (run, rest) =>
        if run.length + 1 ≥ 3 && atBoundary rest then
          String.mk (c :: run) :: letterRunsAux n true rest
        else letterRunsAux n true rest
    else letterRunsAux n (isWordChar c) cs

/-- All `\b[a-zA-Z]{3,}\b` matches of the lowercased prompt. -/
def letterRuns (pl : String) : List String :=
  letterRunsAux (pl.data.length + 1) false pl.data

/-- The stop-word set of `_extract_unique_keywords`. -/
def keywordStopWords : List String :=
  ["a", "an", "the", "and", "or", "but", "in", "on", "at", "to", "for", "of",
   "with", "by", "from", "is", "are", "was", "were", "be", "been", "being",
   "have", "has", "had", "do", "does", "did", "will", "would", "could",
   "should", "may", "might", "must", "shall", "can", "need", "dare", "ought",
   "used", "i", "you", "he", "she", "it", "we", "they", "what", "which",
   "who", "whom", "this", "that", "these", "those", "am", "your", "our", "my"]

/-- The keyword list before `list(set(...))`. -/
def uniqueKeywordWords (pl : String) : List String :=
  (letterRuns pl).filter (fun w => !keywordStopWords.contains w)

/-- Embeds `_extract_unique_keywords`: `list(set(unique))[:10]`.  The set
iteration order is the ambient parameter `σ` applied to the deduplicated
list; in CPython it depends on the per-process string hash salt. -/
def uniqueKeywords (σ : List String → List String) (pl : String) : List String :=
  (σ (uniqueKeywordWords pl).dedup).take 10

/-! ### Keyword-table classifiers of `PromptAnalyzer` -/

/-- The `business_indicators` table, in dict insertion order. -/
def businessIndicators : List (String × List String) :=
  [("retail_electronics",
    ["mobile", "phone", "electronics", "gadget", "smartphone", "laptop", "computer"]),
   ("retail_fashion",
    ["fashion", "clothing", "apparel", "boutique", "dress", "wear", "style"]),
   ("food_restaurant",
    ["restaurant", "cafe", "coffee", "food", "kitchen", "dining", "eat", "menu"]),
   ("food_delivery", ["delivery", "order food", "takeaway", "takeout"]),
   ("fitness_gym", ["gym", "fitness", "workout", "training", "exercise", "muscle"]),
   ("beauty_salon", ["salon", "spa", "beauty", "skincare", "makeup", "cosmetic", "glow"]),
   ("professional_service",
    ["consulting", "agency", "service", "solution", "legal", "accounting"]),
   ("tech_startup",
    ["startup", "app", "software", "saas", "platform", "tech", "ai", "digital"]),
   ("ecommerce", ["online", "ecommerce", "e-commerce", "shop online", "buy online"]),
   ("local_store", ["store", "shop", "local", "near", "city", "town"]),
   ("event", ["event", "party", "concert", "festival", "wedding", "celebration"]),
   ("education",
    ["course", "class", "learn", "training", "academy", "school", "tutorial"]),
   ("real_estate", ["property", "real estate", "home", "house", "apartment", "rent"]),
   ("travel", ["travel", "trip", "vacation", "hotel", "flight", "tour", "destination"]),
   ("healthcare",
    ["clinic", "hospital", "doctor", "health", "medical", "pharmacy", "dental"])]

/-- Embeds `_determine_business_type`: first table entry with a keyword
occurring in the lowercased prompt; falls back to `"general_business"`. -/
def determineBusinessType (pl : String) : String :=
  match businessIndicators.find? (fun e => e.2.any (fun kw => pyIn kw pl)) with
  | some e => e.1
  | none => "general_business"

/-- Embeds `_determine_scale`. -/
def determineScale (pl : String) : String :=
  let largeIndicators := ["chain", "franchise", "national", "international",
    "global", "brand", "launch", "mega"]
  let smallIndicators := ["local", "neighborhood", "family", "small",
    "your local", "trusted", "near you"]
  if largeIndicators.any (fun w => pyIn w pl) then "large"
  else if smallIndicators.any (fun w => pyIn w pl) then "small_local"
  else "medium"

/-- The `emotions` keyword table, in dict insertion order. -/
def emotionTable : List (String × List String) :=
  [("trust", ["trusted", "reliable", "honest", "genuine", "authentic", "certified", "quality"]),
   ("excitement", ["exciting", "amazing", "incredible", "wow", "new", "launch", "introducing"]),
   ("urgency", ["urgent", "hurry", "limited", "now", "today", "flash", "last chance", "ending"]),
   ("warmth", ["warm", "welcome", "family", "home", "cozy", "friendly", "care"]),
   ("prestige", ["luxury", "premium", "exclusive", "elite", "vip", "high-end"]),
   ("value", ["affordable", "cheap", "budget", "save", "discount", "deal", "offer", "price"]),
   ("professionalism", ["professional", "expert", "specialist", "quality", "certified"]),
   ("fun", ["fun", "enjoy", "celebrate", "party", "happy", "joy"])]

/-- Embeds `_determine_emotion`: keyword hit counts, argmax in table order
(`max` with a key function returns the first maximal entry); `"neutral"`
when every score is zero. -/
def determineEmotion (pl : String) : String :=
  let scores := emotionTable.map (fun e => (e.1, (e.2.filter (fun k => pyIn k pl)).length))
  let best := scores.foldl (fun acc s => if s.2 > acc.2 then s else acc) (("", 0) : String × ℕ)
  if best.2 > 0 then best.1 else "neutral"

/-- Embeds `_determine_urgency`: `min(count * 3, 10)`. -/
def determineUrgency (pl : String) : ℤ :=
  let urgentWords := ["urgent", "now", "today", "limited", "hurry", "flash",
    "ending", "last", "quick", "fast", "instant"]
  min ((urgentWords.filter (fun w => pyIn w pl)).length * 3 : ℤ) 10

/-- Embeds `_needs_trust`. -/
def needsTrust (pl : String) : Bool :=
  let trustContexts := ["mobile", "electronics", "money", "finance", "health",
    "medical", "legal", "real estate", "local", "store", "shop"]
  trustContexts.any (fun ctx => pyIn ctx pl)

/-- Embeds `_determine_excitement`: `min(count * 2, 10)`. -/
def determineExcitement (pl : String) : ℤ :=
  let excitingWords := ["new", "launch", "introducing", "amazing", "incredible",
    "exciting", "wow", "revolutionary", "exclusive"]
  min ((excitingWords.filter (fun w => pyIn w pl)).length * 2 : ℤ) 10

/-- Embeds `_has_offer`. -/
def hasOffer (pl : String) : Bool :=
  let offerWords := ["sale", "discount", "off", "offer", "deal", "save",
    "free", "promo", "coupon", "%"]
  offerWords.any (fun w => pyIn w pl)

/-- Embeds `_is_price_focused`: at least two price words present. -/
def isPriceFocused (pl : String) : Bool :=
  let priceWords := ["price", "affordable", "cheap", "budget", "value", "deal",
    "offer", "discount", "save", "cost"]
  (priceWords.filter (fun w => pyIn w pl)).length ≥ 2

/-- Embeds `_calculate_visual_weight` from the whitespace word count. -/
def calcVisualWeight (wordCount : ℕ) : String :=
  if wordCount > 15 then "heavy"
  else if wordCount > 8 then "medium"
  else "light"

/-- Embeds `_calculate_density`. -/
def calcDensity (pl : String) : String :=
  let infoIndicators := ["features", "services", "offers", "products", "all",
    "everything", "complete", "full"]
  let count := (infoIndicators.filter (fun w => pyIn w pl)).length
  if count ≥ 2 then "dense"
  else if count = 1 then "moderate"
  else "focused"

/-- Embeds `_determine_color_temp`. -/
def determineColorTemp (pl : String) : String :=
  let warmContexts := ["food", "coffee", "restaurant", "home", "family",
    "cozy", "warm", "traditional", "indian", "spice"]
  let coolContexts := ["tech", "digital", "modern", "startup", "app",
    "software", "ai", "future", "cool", "fresh"]
  let warmScore := (warmContexts.filter (fun w => pyIn w pl)).length
  let coolScore := (coolContexts.filter (fun w => pyIn w pl)).length
  if warmScore > coolScore then "warm"
  else if coolScore > warmScore then "cool"
  else "neutral"

/-- Embeds `_determine_contrast`. -/
def determineContrast (pl : String) : String :=
  let highContrastContexts := ["sale", "urgent", "flash", "bold", "mega", "big", "huge"]
  let lowContrastContexts := ["elegant", "subtle", "minimal", "soft", "gentle", "luxury"]
  if highContrastContexts.any (fun w => pyIn w pl) then "high"
  else if lowContrastContexts.any (fun w => pyIn w pl) then "low"
  else "medium"

/-- The `audience_hints` table, in dict insertion order. -/
def audienceHints : List (String × List String) :=
  [("youth", ["trendy", "cool", "instagram", "tiktok", "gen z", "student", "college"]),
   ("families", ["family", "kids", "children", "home", "household"]),
   ("professionals", ["business", "professional", "office", "corporate", "enterprise"]),
   ("budget_conscious", ["affordable", "budget", "cheap", "save", "discount", "value"]),
   ("premium", ["luxury", "premium", "exclusive", "high-end", "elite"]),
   ("local", ["local", "neighborhood", "community", "near", "city"])]

/-- Embeds `_infer_audience`. -/
def inferAudience (pl : String) : String :=
  match audienceHints.find? (fun e => e.2.any (fun h => pyIn h pl)) with
  | some e => e.1
  | none => "general"

/-! ### The analysis record (`PromptAnalyzer._deep_analyze`) -/

/-- The analysis dict produced by `PromptAnalyzer._deep_analyze`, with one
field per key. -/
structure Analysis where
  brand_name : Option String
  business_type : String
  business_scale : String
  locality : Option String
  emotional_tone : String
  urgency_level : ℤ
  trust_signals_needed : Bool
  excitement_level : ℤ
  has_offer : Bool
  offer_details : Option Offer
  price_sensitivity : Bool
  value_proposition : Option String
  visual_weight : String
  density_preference : String
  color_temperature : String
  contrast_level : String
  unique_keywords : List String
  differentiators : List String
  target_audience_hints : String
  deriving DecidableEq

/-- Embeds `PromptAnalyzer` applied to a prompt: every `_deep_analyze` field
computed from the raw prompt and its lowercase form.  `σ` is the ambient
`list(set(...))` iteration order (see the module header). -/
def analysisOf (σ : List String → List String) (prompt : String) : Analysis :=
  let pl := pyLower prompt
  let wordCount := (pySplit prompt).length
  ⟨extractBrandName prompt,
   determineBusinessType pl,
   determineScale pl,
   extractLocality prompt pl,
   determineEmotion pl,
   determineUrgency pl,
   needsTrust pl,
   determineExcitement pl,
   hasOffer pl,
   extractOffer pl,
   isPriceFocused pl,
   extractValueProp pl,
   calcVisualWeight wordCount,
   calcDensity pl,
   determineColorTemp pl,
   determineContrast pl,
   uniqueKeywords σ pl,
   findDifferentiators pl,
   inferAudience pl⟩

/-! ## `CreativeDirector._develop_creative_direction` -/

/-- The creative-direction dict. -/
structure Direction where
  primary_message : String
  focal_point : String
  hierarchy : List String
  visual_style : String
  design_rationale : String
  deriving DecidableEq

/-- Embeds `_develop_creative_direction`. -/
def developCreativeDirection (a : Analysis) : Direction :=
  let pmFpH : String × String × List String :=
    if a.has_offer && a.offer_details.isSome then
      ("promotional", "offer", ["offer", "brand", "cta", "trust"])
    else if a.business_scale == "small_local" then
      ("trust_building", "brand_identity", ["brand", "value_prop", "trust_signals", "cta"])
    else if a.excitement_level > 5 then
      ("announcement", "headline", ["headline", "brand", "details", "cta"])
    else
      ("brand_awareness", "brand", ["brand", "tagline", "cta"])
  let vs : String :=
    if a.business_type == "retail_electronics" || a.business_type == "retail_fashion"
        || a.business_type == "local_store" then
      if a.emotional_tone == "trust" then "clean_trustworthy"
      else if a.emotional_tone == "value" then "bold_promotional"
      else "professional_retail"
    else if a.business_type == "tech_startup" || a.business_type == "professional_service" then
      "modern_minimal"
    else if a.business_type == "food_restaurant" || a.business_type == "food_delivery" then
      "warm_appetizing"
    else if a.business_type == "fitness_gym" then "energetic_bold"
    else if a.business_type == "beauty_salon" then "elegant_refined"
    else "balanced_professional"
  let rationaleParts : List String :=
    (match a.brand_name with
     | some b => ["Design for " ++ String.mk [quoteChar] ++ b ++ String.mk [quoteChar]]
     | none => []) ++
    ["targeting " ++ a.target_audience_hints ++ " audience",
     "with " ++ a.emotional_tone ++ " emotional tone"] ++
    (match a.locality with
     | some l => ["emphasizing local presence in " ++ l]
     | none => [])
  ⟨pmFpH.1, pmFpH.2.1, pmFpH.2.2, vs, String.intercalate ", " rationaleParts⟩

/-! ## `CreativeDirector._create_custom_palette` and `hsl_to_hex` -/

/-- Python `int(...)` on a nonnegative rational: truncation toward zero (the
values fed to it in `hsl_to_hex` are proved nonnegative, where truncation
coincides with the floor). -/
def pyTrunc (x : ℚ) : ℤ :=
  if x < 0 then -Int.floor (-x) else Int.floor x

/-- Lowercase hex digit for `{:02x}` formatting. -/
def hexDigitChar (n : ℕ) : Char :=
  if n < 10 then Char.ofNat (48 + n) else Char.ofNat (87 + n)

/-- Hex digit expansion, most significant first; fueled (the fuel bound
`n + 1` always suffices, keeping the recursion structural). -/
def hexStrAux : ℕ → ℕ → List Char
  | 0, _ => []
  | fuel + 1, n =>
    if n < 16 then [hexDigitChar n]
    else hexStrAux fuel (n / 16) ++ [hexDigitChar (n % 16)]

/-- Hex digits of `n`, as produced by Python `{:x}`. -/
def hexStr (n : ℕ) : List Char := hexStrAux (n + 1) n

/-- Python `{:02x}`: zero-padded to width 2. -/
def fmt02x (n : ℕ) : List Char :=
  let ds := hexStr n
  if ds.length < 2 then '0' :: ds else ds

/-- Embeds the inner `hue_to_rgb(p, q, t)` of `hsl_to_hex` (the two
conditional shifts are applied in sequence, as in the source). -/
def hueToRgb (p q t : ℚ) : ℚ :=
  let t1 := if t < 0 then t + 1 else t
  let t2 := if t1 > 1 then t1 - 1 else t1
  if t2 < 1/6 then p + (q - p) * 6 * t2
  else if t2 < 1/2 then q
  else if t2 < 2/3 then p + (q - p) * (2/3 - t2) * 6
  else p

/-- The local `q` of `hsl_to_hex` (on the already normalized `s`, `l`). -/
def hslQ (s l : ℚ) : ℚ := if l < 1/2 then l * (1 + s) else l + s - l * s

/-- The local `p` of `hsl_to_hex`. -/
def hslP (s l : ℚ) : ℚ := 2 * l - hslQ s l

/-- The `(r, g, b)` triple of `hsl_to_hex` on the normalized `h`, `s`, `l`
(inputs already divided by 360 and 100). -/
def hslRgbTriple (h s l : ℚ) : ℚ × ℚ × ℚ :=
  if s = 0 then (l, l, l)
  else
    (hueToRgb (hslP s l) (hslQ s l) (h + 1/3),
     hueToRgb (hslP s l) (hslQ s l) h,
     hueToRgb (hslP s l) (hslQ s l) (h - 1/3))

/-- Embeds `hsl_to_hex(h, s, l)` over exact rationals. -/
def hslToHex (h s l : ℚ) : String :=
  let rgb := hslRgbTriple (h / 360) (s / 100) (l / 100)
  String.mk ('#' :: (fmt02x (pyTrunc (rgb.1 * 255)).toNat ++
    fmt02x (pyTrunc (rgb.2.1 * 255)).toNat ++ fmt02x (pyTrunc (rgb.2.2 * 255)).toNat))

/-- The palette dict. -/
structure Palette where
  accent : String
  secondary : String
  background_primary : String
  background_secondary : String
  text_primary : String
  text_secondary : String
  background_colors : List String
  deriving DecidableEq

/-- The `hue_ranges` dict with its `.get(temp, (0, 360))` default. -/
def hueRangeOf (temp : String) : ℤ × ℤ :=
  if temp == "warm" then (15, 45)
  else if temp == "cool" then (200, 240)
  else if temp == "neutral" then (0, 360)
  else (0, 360)

/-- The `business_hue_adjust` dict. -/
def businessHueAdjust : List (String × ℤ) :=
  [("retail_electronics", 210), ("food_restaurant", 25), ("fitness_gym", 0),
   ("beauty_salon", 330), ("tech_startup", 220), ("professional_service", 220),
   ("real_estate", 35)]

/-- The `sat_map` dict. -/
def satMap : List (String × ℤ) :=
  [("excitement", 85), ("urgency", 90), ("trust", 60), ("warmth", 55),
   ("prestige", 40), ("value", 80), ("professionalism", 50), ("fun", 85),
   ("neutral", 65)]

/-- Dict `.get(key, default)` over an association list. -/
def lookupD (t : List (String × ℤ)) (k : String) (d : ℤ) : ℤ :=
  match t.find? (fun e => e.1 == k) with
  | some e => e.2
  | none => d

/-- The base hue of `_create_custom_palette`: temperature-indexed seeded draw,
overridden by the business-type hue table plus jitter. -/
def paletteBaseHue (seed : ℤ) (a : Analysis) : ℤ :=
  let hr := hueRangeOf a.color_temperature
  let base := seededInt seed hr.1 hr.2 100
  match businessHueAdjust.find? (fun e => e.1 == a.business_type) with
  | some e => e.2 + seededInt seed (-15) 15 101
  | none => base

/-- The saturation of `_create_custom_palette`, clamped by
`max(30, min(100, saturation))`. -/
def paletteSaturation (seed : ℤ) (a : Analysis) : ℤ :=
  let sat0 := lookupD satMap a.emotional_tone 65 + seededInt seed (-10) 10 102
  max 30 (min 100 sat0)

/-- Background lightness, indexed by contrast preference. -/
def paletteBgLightness (seed : ℤ) (a : Analysis) : ℤ :=
  if a.contrast_level == "high" then seededInt seed 8 18 103
  else if a.contrast_level == "low" then seededInt seed 20 35 103
  else seededInt seed 12 25 103

/-- Text lightness, indexed by contrast preference. -/
def paletteTextLightness (a : Analysis) : ℤ :=
  if a.contrast_level == "high" then 95
  else if a.contrast_level == "low" then 90
  else 95

/-- Embeds `_create_custom_palette` (Python `//` is floor division,
`Int.fdiv`; `% 360` on possibly negative hues is `Int.emod`). -/
def createCustomPalette (seed : ℤ) (a : Analysis) : Palette :=
  let baseHue := paletteBaseHue seed a
  let saturation := paletteSaturation seed a
  let bgLightness := paletteBgLightness seed a
  let textLightness := paletteTextLightness a
  let accent := hslToHex (baseHue : ℚ) (saturation : ℚ) 55
  let secondaryHue := (baseHue + 30 + seededInt seed 0 60 104).emod 360
  let secondary := hslToHex (secondaryHue : ℚ) ((saturation : ℚ) - 10) 60
  let bgPrimary := hslToHex (baseHue : ℚ) (Int.fdiv saturation 3 : ℚ) (bgLightness : ℚ)
  let bgSecondary := hslToHex ((baseHue + 20).emod 360 : ℚ) (Int.fdiv saturation 4 : ℚ)
    ((bgLightness : ℚ) + 5)
  let textPrimary := hslToHex (baseHue : ℚ) 5 (textLightness : ℚ)
  let textSecondary := hslToHex (baseHue : ℚ) 10 ((textLightness : ℚ) - 20)
  ⟨accent, secondary, bgPrimary, bgSecondary, textPrimary, textSecondary,
   [bgPrimary, bgSecondary]⟩

/-! ## `CreativeDirector._invent_layout` -/

/-- A layout zone `{x, y, width, height}` in percent of canvas. -/
structure Zone where
  x : ℚ
  y : ℚ
  width : ℚ
  height : ℚ
  deriving DecidableEq

/-- The layout dict: constant `type` and `spacing_ratio` fields, the chosen
alignment, and the zones dict as an association list in insertion order. -/
structure Layout where
  ltype : String
  alignment : String
  spacing_ratio : ℚ
  zones : List (String × Zone)
  deriving DecidableEq

/-- The `importance_weights` dict with its `.get(z, 0.8)` default. -/
def importanceWeight (z : String) : ℚ :=
  if z == "offer" then 1.5
  else if z == "brand" then 1.2
  else if z == "headline" then 1.4
  else if z == "value_prop" then 0.8
  else if z == "trust_signals" then 0.6
  else if z == "cta" then 0.7
  else if z == "tagline" then 0.6
  else if z == "details" then 0.5
  else 0.8

/-- Alignment weights: left/center/right, adjusted for large scale or offers. -/
def alignmentWeights (a : Analysis) : List ℚ :=
  if a.business_scale == "large" then [0.3, 0.5, 0.2]
  else if a.has_offer then [0.25, 0.5, 0.25]
  else [0.4, 0.35, 0.25]

/-- The cumulative-weight walk of `_invent_layout` (the `for ... else` loop;
the `else` branch yields `"center"`). -/
def pickWeighted (threshold : ℚ) : List (String × ℚ) → ℚ → String
  | [], _ => "center"
  | (al, w) :: rest, cum =>
    if threshold < cum + w then al else pickWeighted threshold rest (cum + w)

/-- The alignment drawn from the seeded threshold `_seeded_float(offset=200)`. -/
def chooseAlignment (seed : ℤ) (a : Analysis) : String :=
  pickWeighted (seededFloat seed 200) (List.zip ["left", "center", "right"] (alignmentWeights a)) 0

/-- Per-zone x and width: alignment-dependent, jittered by
`_seeded_int(..., offset=hash(zone_name))` where `hash` is the ambient
salted string hash `ph`. -/
def zoneXW (seed : ℤ) (ph : String → ℤ) (alignment : String) (name : String) : ℚ × ℚ :=
  if alignment == "left" then
    ((8 : ℚ) + (seededInt seed 0 3 (ph name) : ℚ),
     (70 : ℚ) + (seededInt seed (-5) 10 (ph name + 1) : ℚ))
  else if alignment == "right" then
    let w := (70 : ℚ) + (seededInt seed (-5) 10 (ph name + 1) : ℚ)
    (92 - w + (seededInt seed 0 3 (ph name) : ℚ), w)
  else
    let w := (80 : ℚ) + (seededInt seed (-10) 10 (ph name + 1) : ℚ)
    ((100 - w) / 2, w)

/-- Zone heights: importance weight normalized over the active hierarchy,
scaled into 70% of the canvas. -/
def zoneHeights (hier : List String) : List (String × ℚ) :=
  let totalWeight := (hier.map importanceWeight).sum
  hier.map (fun z => (z, importanceWeight z / totalWeight * 70))

/-- Density-indexed top margin. -/
def topMarginOf (density : String) : ℚ :=
  if density == "dense" then 8
  else if density == "focused" then 20
  else 15

/-- Density-indexed inter-zone spacing. -/
def spacingOf (density : String) : ℚ :=
  if density == "dense" then 2
  else if density == "focused" then 8
  else 5

/-- The zone-placement loop: running y-cursor advanced by height + spacing. -/
def placeZones (seed : ℤ) (ph : String → ℤ) (alignment : String) (spacing : ℚ) :
    List (String × ℚ) → ℚ → List (String × Zone)
  | [], _ => []
  | (name, h) :: rest, y =>
    let xw := zoneXW seed ph alignment name
    (name, ⟨xw.1, y, xw.2, h⟩) :: placeZones seed ph alignment spacing rest (y + h + spacing)

/-- The cursor position after the placement loop. -/
def finalCursor (spacing : ℚ) (heights : List (String × ℚ)) (y0 : ℚ) : ℚ :=
  heights.foldl (fun y nh => y + nh.2 + spacing) y0

/-- The primary content zones of `_invent_layout`, in hierarchy order. -/
def layoutContentZones (seed : ℤ) (ph : String → ℤ) (a : Analysis) : List (String × Zone) :=
  placeZones seed ph (chooseAlignment seed a) (spacingOf a.density_preference)
    (zoneHeights (developCreativeDirection a).hierarchy) (topMarginOf a.density_preference)

/-- The final y-cursor of `_invent_layout` for the footer test. -/
def layoutFinalY (a : Analysis) : ℚ :=
  finalCursor (spacingOf a.density_preference)
    (zoneHeights (developCreativeDirection a).hierarchy) (topMarginOf a.density_preference)

/-- Embeds `_invent_layout`: content zones plus the decorative footer zone
when more than 15% of vertical space remains. -/
def inventLayout (seed : ℤ) (ph : String → ℤ) (a : Analysis) : Layout :=
  let zones := layoutContentZones seed ph a
  let zonesAll :=
    if 100 - layoutFinalY a > 15 then zones ++ [("footer", ⟨5, 90, 90, 8⟩)]
    else zones
  ⟨"custom", chooseAlignment seed a, 1, zonesAll⟩

/-! ## `CreativeDirector._write_contextual_copy` -/

/-- The copy dict. -/
structure Copy where
  headline : String
  subheadline : String
  cta : String
  trust_line : String
  offer_text : String
  deriving DecidableEq

/-- The brand-indexed headline phrase banks of `_write_contextual_copy`. -/
def headlineBank (a : Analysis) (b : String) : List String :=
  if a.business_type == "retail_electronics" then
    [b ++ "\nYour Trusted Mobile Destination",
     b ++ "\nSmartphones. Accessories. Service.",
     "Welcome to " ++ b ++ "\nGenuine Devices, Honest Prices",
     b ++ "\nLatest Tech, Best Deals"]
  else if a.business_type == "local_store" then
    match a.locality with
    | some loc =>
      [b ++ "\nServing " ++ loc ++ " Since Day One",
       "Visit " ++ b ++ "\nYour Neighborhood Store in " ++ loc,
       b ++ "\nTrusted by " ++ loc]
    | none =>
      [b ++ "\nYour Neighborhood Store",
       "Shop at " ++ b ++ "\nQuality You Can Trust",
       "Welcome to " ++ b]
  else if a.business_type == "food_restaurant" then
    [b ++ "\nFlavors You\x27ll Love",
     "Dine at " ++ b ++ "\nFreshly Made, Always Delicious",
     b ++ "\nWhere Taste Meets Quality"]
  else if a.business_type == "fitness_gym" then
    [b ++ "\nTransform Your Body",
     "Join " ++ b ++ "\nYour Fitness Journey Starts Here",
     b ++ "\nStrength. Discipline. Results."]
  else if a.business_type == "beauty_salon" then
    [b ++ "\nElevate Your Beauty",
     "Experience " ++ b ++ "\nWhere Beauty Meets Care",
     b ++ "\nGlow with Confidence"]
  else if a.business_type == "tech_startup" then
    [b ++ "\nSimplifying the Complex",
     b ++ "\nBuilt for Tomorrow",
     "Meet " ++ b ++ "\nSmart Solutions, Real Results"]
  else
    [b, "Experience " ++ b, "Welcome to " ++ b]

/-- Embeds `_write_contextual_copy`: headline (offer, then brand bank, then
keyword/locality fallbacks), subheadline, CTA and trust line, each a seeded
pick from its bank. -/
def writeContextualCopy (seed : ℤ) (a : Analysis) : Copy :=
  let headlineOffer : Option (String × String) :=
    if a.has_offer then
      match a.offer_details with
      | some o =>
        some (match a.brand_name with
              | some b => (b ++ "\n" ++ o.text, o.text)
              | none => (o.text, o.text))
      | none => none
    else none
  let headline : String :=
    match headlineOffer with
    | some p => p.1
    | none =>
      match a.brand_name with
      | some b => seededPick seed (headlineBank a b) 300
      | none =>
        match a.unique_keywords with
        | kw :: _ =>
          let mainKw := pyCapitalize kw
          if a.business_type == "retail_electronics" then "Your " ++ mainKw ++ " Destination"
          else if a.business_type == "food_restaurant" then "Taste the Best " ++ mainKw
          else "Quality " ++ mainKw
        | [] =>
          match a.locality with
          | some loc => "Serving " ++ loc ++ "\nWith Excellence"
          | none => "Quality You Deserve"
  let offerText : String :=
    match headlineOffer with
    | some p => p.2
    | none => ""
  let subheadline : String :=
    let bank :=
      if a.emotional_tone == "trust" then
        ["Trusted by thousands of customers", "Quality assured, always",
         "Your satisfaction is our priority"]
      else if a.emotional_tone == "value" then
        ["Best prices, guaranteed", "Unbeatable value, every day",
         "Quality without compromise"]
      else if a.emotional_tone == "excitement" then
        ["Something special awaits", "Experience the difference",
         "You won\x27t want to miss this"]
      else if a.differentiators.contains "reliability" then
        ["Dependable service, every time", "Count on us for consistency"]
      else
        ["Quality service, always", "We\x27re here for you",
         "Excellence in every detail"]
    seededPick seed bank 310
  let cta : String :=
    let bank :=
      if a.has_offer then ["Shop Now", "Claim Offer", "Get Deal", "Save Today"]
      else if a.business_type == "food_restaurant" then
        ["Order Now", "View Menu", "Book Table", "Visit Us"]
      else if a.business_type == "fitness_gym" then
        ["Join Today", "Start Free", "Book Trial", "Get Fit"]
      else if a.business_type == "tech_startup" then
        ["Get Started", "Try Free", "Learn More", "Sign Up"]
      else if a.business_type == "local_store" || a.business_type == "retail_electronics" then
        ["Visit Store", "Shop Now", "Call Us", "Get Directions"]
      else ["Learn More", "Contact Us", "Get Started", "Visit"]
    seededPick seed bank 320
  let trustLine : String :=
    if a.trust_signals_needed then
      let bank :=
        if a.business_type == "retail_electronics" then
          ["✓ Genuine Products", "✓ Warranty Assured", "✓ Expert Support"]
        else
          match a.locality with
          | some loc => ["✓ Serving " ++ loc, "✓ Local & Trusted", "✓ Community Choice"]
          | none => ["✓ Quality Guaranteed", "✓ Trusted Service", "✓ Customer First"]
      seededPick seed bank 330
    else ""
  ⟨headline, subheadline, cta, trustLine, offerText⟩

/-! ## `CreativeDirector._construct_elements` -/

/-- An element dict.  `etype` is the `"type"` key (`"text"` or `"shape"`);
`id` initially holds the id prefix passed to `next_id`, and `numberIds`
appends the running counter, which equals the 1-based position in the final
list (the counter is bumped once per appended element, in list order).
Optional fields model dict keys that a given element kind does not set. -/
structure Element where
  etype : String
  id : String
  x : ℚ
  y : ℚ
  w : ℚ
  h : ℚ
  shape_type : Option String
  fill_color : Option String
  opacity : Option ℚ
  corner_radius : Option ℚ
  content : Option String
  font_size : Option ℚ
  font_weight : Option ℚ
  font_family : Option String
  color : Option String
  align : Option String
  line_height : Option ℚ
  letter_spacing : Option ℚ
  deriving DecidableEq

/-- Shape element dict constructor. -/
def mkShape (pfx st : String) (x y w h : ℚ) (fill : String) (op cr : Option ℚ) : Element :=
  ⟨"shape", pfx, x, y, w, h, some st, some fill, op, cr, none, none, none, none, none,
   none, none, none⟩

/-- Text element dict constructor. -/
def mkText (pfx : String) (x y w h : ℚ) (content : String) (fs fw : ℚ)
    (ff col al : String) (lh op : Option ℚ) : Element :=
  ⟨"text", pfx, x, y, w, h, none, none, op, none, some content, some fs, some fw,
   some ff, some col, some al, lh, none⟩

/-- Resolves the `next_id` counter: the counter equals the 1-based position of
the element in the assembled list. -/
def numberIds (es : List Element) : List Element :=
  es.mapIdx (fun i e =>
    ⟨e.etype, e.id ++ "_" ++ toString (i + 1), e.x, e.y, e.w, e.h, e.shape_type,
     e.fill_color, e.opacity, e.corner_radius, e.content, e.font_size,
     e.font_weight, e.font_family, e.color, e.align, e.line_height,
     e.letter_spacing⟩)

/-- Zone dict lookup (`zone_name in zones` / `zones[zone_name]`). -/
def lookupZone (zones : List (String × Zone)) (name : String) : Option Zone :=
  match zones.find? (fun e => e.1 == name) with
  | some e => some e.2
  | none => none

/-- The per-hierarchy-entry content elements of `_construct_elements`
(`idx` is the `enumerate` index, used by the headline font-size offset).
Empty-string copy fields are falsy in Python, skipping the offer badge,
trust line and details. -/
def zoneElements (seed : ℤ) (alignment : String) (colors : Palette) (copy : Copy)
    (idx : ℕ) (name : String) (zone : Zone) : List Element :=
  if name == "offer" then
    if copy.offer_text ≠ "" then
      let badgeWidth := min 40 zone.width
      let badgeX :=
        if alignment == "center" then zone.x + (zone.width - badgeWidth) / 2 else zone.x
      [mkShape "offer_bg" "rect" badgeX zone.y badgeWidth zone.height colors.accent
        none (some 8),
       mkText "offer_text" badgeX (zone.y + 2) badgeWidth (zone.height - 4)
        copy.offer_text 32 900 "Montserrat" colors.background_primary "center" none none]
    else []
  else if name == "brand" || name == "headline" then
    let fontSize := (48 + seededInt seed 0 20 (410 + idx) : ℚ)
    [mkText "headline" zone.x zone.y zone.width zone.height copy.headline fontSize 800
      "Montserrat" colors.text_primary alignment (some 0.95) none]
  else if name == "value_prop" || name == "tagline" then
    [mkText "subheadline" zone.x zone.y zone.width zone.height copy.subheadline 18 400
      "Inter" colors.text_secondary alignment none (some 0.85)]
  else if name == "trust_signals" then
    if copy.trust_line ≠ "" then
      [mkText "trust" zone.x zone.y zone.width zone.height copy.trust_line 14 500
        "Inter" colors.accent alignment none none]
    else []
  else if name == "cta" then
    let btnWidth := min 35 zone.width
    let btnX :=
      if alignment == "left" then zone.x
      else if alignment == "right" then zone.x + zone.width - btnWidth
      else zone.x + (zone.width - btnWidth) / 2
    let cornerRadius := (seededInt seed 4 25 420 : ℚ)
    [mkShape "cta_bg" "rect" btnX zone.y btnWidth 10 colors.accent none (some cornerRadius),
     mkText "cta_text" btnX (zone.y + 2.5) btnWidth 5 (pyUpper copy.cta) 14 700 "Inter"
      colors.background_primary "center" none none]
  else if name == "details" then
    if copy.trust_line ≠ "" then
      [mkText "details" zone.x zone.y zone.width zone.height copy.trust_line 13 400
        "Inter" colors.text_secondary alignment none (some 0.7)]
    else []
  else []

/-- The `for idx, zone_name in enumerate(hierarchy)` loop, skipping hierarchy
entries without a zone. -/
def contentElements (seed : ℤ) (alignment : String) (colors : Palette) (copy : Copy)
    (zones : List (String × Zone)) (hier : List String) : List Element :=
  (hier.enum.map (fun p =>
    match lookupZone zones p.2 with
    | some z => zoneElements seed alignment colors copy p.1 p.2 z
    | none => [])).flatten

/-- The accent divider below the brand/headline zone. -/
def dividerElements (alignment : String) (colors : Palette)
    (zones : List (String × Zone)) : List Element :=
  if (lookupZone zones "headline").isSome || (lookupZone zones "brand").isSome then
    match (lookupZone zones "brand").orElse (fun _ => lookupZone zones "headline") with
    | some ref =>
      let lineY := ref.y + ref.height + 2
      let lineX := if alignment == "right" then ref.x + ref.width - 20 else ref.x
      [mkShape "divider" "rect" lineX lineY 20 0.8 colors.accent (some 0.9) none]
    | none => []
  else []

/-- Embeds `_construct_elements`: decorative glows (gated by visual weight),
one seeded accent motif, the per-zone content elements, and the divider, in
paint order, with ids resolved by position. -/
def constructElements (seed : ℤ) (a : Analysis) (L : Layout) (colors : Palette)
    (copy : Copy) : List Element :=
  let zones := L.zones
  let alignment := L.alignment
  let decorGlow : List Element :=
    if a.visual_weight == "medium" || a.visual_weight == "heavy" then
      [mkShape "glow" "circle" (seededInt seed (-20) 20 400 : ℚ)
        (seededInt seed (-10) 30 401 : ℚ) 60 60 colors.accent (some 0.08) none,
       mkShape "glow" "circle" (seededInt seed 50 90 402 : ℚ)
        (seededInt seed 40 80 403 : ℚ) 45 45 colors.secondary (some 0.1) none]
    else []
  let accentStyle := seededInt seed 0 3 404
  let accents : List Element :=
    if accentStyle = 0 then
      [mkShape "corner" "rect" 5 5 15 0.5 colors.accent (some 0.6) none,
       mkShape "corner" "rect" 5 5 0.5 15 colors.accent (some 0.6) none]
    else if accentStyle = 1 then
      (List.range 3).flatMap (fun (i : ℕ) => (List.range 3).map (fun (j : ℕ) =>
        mkShape "dot" "circle" (5 + (i : ℚ) * 3) (5 + (j : ℚ) * 3) 1.5 1.5
          colors.accent (some 0.4) none))
    else if accentStyle = 2 then
      [mkShape "accent_line" "rect" 0 (seededInt seed 30 50 405 : ℚ) 4 30
        colors.accent (some 0.3) none]
    else []
  let hier := (developCreativeDirection a).hierarchy
  numberIds (decorGlow ++ accents ++
    contentElements seed alignment colors copy zones hier ++
    dividerElements alignment colors zones)

/-! ## `CreativeDirector._design_background`, `generate`, and `blueprint_to_fabric` -/

/-- The background dict. -/
structure Background where
  btype : String
  colors : List String
  angle : ℤ
  color : String
  deriving DecidableEq

/-- Embeds `_design_background`: the emotion branches override the base
angle draw (both draws are pure, so only the surviving one is written). -/
def designBackground (seed : ℤ) (a : Analysis) (colors : Palette) : Background :=
  let baseAngle :=
    if a.emotional_tone == "excitement" || a.emotional_tone == "urgency" then
      seededInt seed 30 60 501
    else if a.emotional_tone == "trust" || a.emotional_tone == "professionalism" then
      seededInt seed 160 200 501
    else seededInt seed 120 180 500
  ⟨"gradient", colors.background_colors, baseAngle, colors.background_primary⟩

/-- Embeds `CreativeDirector._get_canvas_size`. -/
def getCanvasSize (format : String) : ℤ × ℤ :=
  let fl := pyLower format
  if fl == "post" then (1080, 1080)
  else if fl == "square" then (1080, 1080)
  else if fl == "story" then (1080, 1920)
  else if fl == "reel" then (1080, 1920)
  else if fl == "landscape" then (1200, 628)
  else if fl == "portrait" then (1080, 1350)
  else (1080, 1080)

/-- The blueprint metadata dict. -/
structure Metadata where
  platform : String
  format : String
  width : ℤ
  height : ℤ
  creative_direction : Direction
  generation_method : String
  deriving DecidableEq

/-- The assembled blueprint. -/
structure Blueprint where
  metadata : Metadata
  analysis : Analysis
  creative_direction : Direction
  color_palette : Palette
  copy : Copy
  background : Background
  elements : List Element
  deriving DecidableEq

/-- Embeds `CreativeDirector.generate` / `generate_creative_design`.  `seed`
stands for `int(hashlib.sha256(prompt.encode()).hexdigest(), 16)` (external
`hashlib`); `ph` and `σ` are the ambient salted-hash parameters. -/
def generate (seed : ℤ) (ph : String → ℤ) (σ : List String → List String)
    (prompt platform format : String) : Blueprint :=
  let a := analysisOf σ prompt
  let wh := getCanvasSize format
  let direction := developCreativeDirection a
  let colors := createCustomPalette seed a
  let layout := inventLayout seed ph a
  let copy := writeContextualCopy seed a
  let elements := constructElements seed a layout colors copy
  let background := designBackground seed a colors
  ⟨⟨platform, format, wh.1, wh.2, direction, "creative_director_v1"⟩,
   a, direction, colors, copy, background, elements⟩

/-- A Fabric.js fill: a plain color or a linear gradient. -/
inductive FabricFill where
  | solid (c : String)
  | linearGradient (x1 y1 x2 y2 : ℚ) (colorStops : List (ℚ × String))
  deriving DecidableEq

/-- A Fabric.js object as emitted by `blueprint_to_fabric`; each constructor
carries exactly the keys the corresponding Python dict literal sets (a
textbox has no height key, a circle has a radius instead of width/height). -/
inductive FabricObj where
  | bgRect (left top width height : ℚ) (fill : FabricFill) (selectable evented : Bool)
  | textbox (id : String) (left top width : ℚ) (text : String) (fontSize : ℚ)
      (fontFamily : String) (fontWeight : ℚ) (fill : String) (textAlign : String)
      (lineHeight : ℚ) (charSpacing : ℚ) (opacity : ℚ)
  | circle (id : String) (left top : ℚ) (fill : String) (opacity radius : ℚ)
  | rect (id : String) (left top : ℚ) (fill : String) (opacity width height rx ry : ℚ)
  deriving DecidableEq

/-- The Fabric.js scene dict. -/
structure Fabric where
  version : String
  objects : List FabricObj
  background : String
  deriving DecidableEq

/-- The per-element conversion loop body of `blueprint_to_fabric`: percentage
geometry resolved against the canvas size; circles use
`min(width, height) / 2` as radius; dict keys read with `.get` defaults. -/
def elementToFabric (width height : ℚ) (e : Element) : Option FabricObj :=
  let left := e.x / 100 * width
  let top := e.y / 100 * height
  let elWidth := e.w / 100 * width
  let elHeight := e.h / 100 * height
  if e.etype == "text" then
    some (FabricObj.textbox e.id left top elWidth (e.content.getD "")
      (e.font_size.getD 24) (e.font_family.getD "Inter") (e.font_weight.getD 400)
      (e.color.getD "#ffffff") (e.align.getD "left") (e.line_height.getD 1.2)
      ((e.letter_spacing.getD 0) * 10) (e.opacity.getD 1))
  else if e.etype == "shape" then
    if e.shape_type.getD "rect" == "circle" then
      some (FabricObj.circle e.id left top (e.fill_color.getD "#8B5CF6")
        (e.opacity.getD 1) (min elWidth elHeight / 2))
    else
      some (FabricObj.rect e.id left top (e.fill_color.getD "#8B5CF6")
        (e.opacity.getD 1) elWidth elHeight (e.corner_radius.getD 0)
        (e.corner_radius.getD 0))
  else none

/-- The background object of `blueprint_to_fabric`.  `cosF` and `sinF` stand
for `math.cos(math.radians(angle))` and `math.sin(math.radians(angle))`,
transcendental functions kept abstract in this embedding. -/
def fabricBackground (cosF sinF : ℚ → ℚ) (width height : ℚ) (bg : Background) : FabricObj :=
  if bg.colors.length > 1 then
    let cx := width / 2
    let cy := height / 2
    let diag := max width height * 1.5
    let x1 := cx - cosF (bg.angle : ℚ) * diag / 2
    let y1 := cy - sinF (bg.angle : ℚ) * diag / 2
    let x2 := cx + cosF (bg.angle : ℚ) * diag / 2
    let y2 := cy + sinF (bg.angle : ℚ) * diag / 2
    let stops := bg.colors.enum.map (fun p =>
      (((p.1 : ℚ)) / ((bg.colors.length : ℚ) - 1), p.2))
    FabricObj.bgRect 0 0 width height (FabricFill.linearGradient x1 y1 x2 y2 stops)
      false false
  else
    FabricObj.bgRect 0 0 width height (FabricFill.solid (bg.colors.headD "#1a1a2e"))
      false false

/-- Embeds `blueprint_to_fabric`. -/
def blueprintToFabric (cosF sinF : ℚ → ℚ) (bp : Blueprint) : Fabric :=
  let width := (bp.metadata.width : ℚ)
  let height := (bp.metadata.height : ℚ)
  ⟨"5.3.0",
   fabricBackground cosF sinF width height bp.background ::
     bp.elements.filterMap (elementToFabric width height),
   bp.background.color⟩

/-! ## Verification predicates and concrete instances

The seeds below are the values of
`int(hashlib.sha256(prompt.encode()).hexdigest(), 16)` for the concrete
prompts used in the theorems; SHA-256 comes from the external `hashlib`
library, so the values are recorded as constants rather than re-derived. -/

/-- A representative value of the ambient per-process string hash, for
instantiating concrete runs. -/
def phZero : String → ℤ := fun _ => 0

/-- A second ambient string hash, differing from `phZero`, as produced by a
CPython process with a different PYTHONHASHSEED salt. -/
def phOne : String → ℤ := fun _ => 1

/-- The prompt of the offer-extraction test in the specification. -/
def promptOffer : String := "Get 20% off everything today"

/-- The prompt of the brand-substitution test in the specification. -/
def promptVisit : String := "Visit Bright Bean Coffee today"

/-- SHA-256 seed of `promptVisit`. -/
def seedVisit : ℤ :=
  54142200117877430473090625706743019108718269427470233781499136104083188613227

/-- A minimal promotional prompt: percentage offer, focused density. -/
def prompt50 : String := "50% off"

/-- SHA-256 seed of `prompt50`. -/
def seed50 : ℤ :=
  73963134536866293217833517400103870507159425536432087264037938826746339760375

/-- A ten-word prompt whose visual weight is `"medium"`, so decorative glow
circles are emitted; its seed places the first glow at negative x. -/
def promptAmazing : String :=
  "Amazing new coffee shop opening soon in your neighborhood today"

/-- SHA-256 seed of `promptAmazing`. -/
def seedAmazing : ℤ :=
  86930319159736256683625918138377010764257975689568660842697247260753241869429

/-- Geometric zone bounds established for every content zone the layout
planner can produce (for any seed, ambient hash, and analysis). -/
def ZoneOK (nz : String × Zone) : Prop :=
  5 ≤ nz.2.x ∧ nz.2.x ≤ 30 ∧ 65 ≤ nz.2.width ∧ nz.2.width ≤ 90 ∧
  nz.2.x + nz.2.width ≤ 95 ∧ 0 < nz.2.height ∧ nz.2.height ≤ 70 ∧
  8 ≤ nz.2.y ∧ nz.2.y ≤ 102 ∧
  (nz.1 = "offer" → nz.2.height = 25) ∧
  ((nz.1 = "brand" ∨ nz.1 = "headline") → nz.2.y + nz.2.height ≤ 76)

/-- The layout configurations in which the running y-cursor can push a zone
past y = 100: focused density combined with one of the two 4-entry
hierarchies whose final entry has a small importance weight. -/
def overflowConfig (a : Analysis) : Prop :=
  a.density_preference = "focused" ∧
  ((developCreativeDirection a).hierarchy = ["offer", "brand", "cta", "trust"] ∨
   (developCreativeDirection a).hierarchy = ["headline", "brand", "details", "cta"])

/-- The element geometry bounds that actually hold for every assembled
element. -/
def ElemGeomOK (e : Element) : Prop :=
  -20 ≤ e.x ∧ e.x ≤ 100 ∧ -10 ≤ e.y ∧ e.y ≤ 105 ∧
  0 < e.w ∧ e.w ≤ 100 ∧ 0 < e.h ∧ e.h ≤ 100

/-- No keyword of the business-category table occurs in the lowercased
prompt. -/
@[reducible] def noCategoryKeyword (pl : String) : Prop :=
  (businessIndicators.all (fun e => e.2.all (fun kw => !pyIn kw pl))) = true

/-- Hex digit test (`0-9`, `a-f`, `A-F`). -/
def isHexDigitA (c : Char) : Bool :=
  isDigitA c || ('a' <= c && c <= 'f') || ('A' <= c && c <= 'F')

/-- Well-formedness of a hex color string: `#` followed by exactly six hex
digits. -/
def isHexColorB (s : String) : Bool :=
  s.length == 7 &&
    (match s.data with
     | c :: rest => c == '#' && rest.all isHexDigitA
     | [] => false)

/-- A concrete analysis (of a neutral prompt) used to populate sample
blueprints for the projection round-trip claim. -/
def rtAnalysis : Analysis := analysisOf id "Quality service"

/-- Palette of the sample blueprint. -/
def rtPalette : Palette := createCustomPalette 0 rtAnalysis

/-- Copy of the sample blueprint. -/
def rtCopy : Copy := writeContextualCopy 0 rtAnalysis

/-- Direction of the sample blueprint. -/
def rtDirection : Direction := developCreativeDirection rtAnalysis

/-- Background of the sample blueprint. -/
def rtBackground : Background := designBackground 0 rtAnalysis rtPalette

/-- A text element with the given height percentage. -/
def rtTextElem (h : ℚ) : Element :=
  mkText "headline" 10 20 50 h "Hello" 48 800 "Montserrat" "#ffffff" "left"
    (some 0.95) none

/-- A sample blueprint at 1080 x 1080 containing one text element of height
`h`. -/
def rtBlueprint (h : ℚ) : Blueprint :=
  ⟨⟨"instagram", "post", 1080, 1080, rtDirection, "creative_director_v1"⟩,
   rtAnalysis, rtDirection, rtPalette, rtCopy, rtBackground, [rtTextElem h]⟩

/-- The first zone of the layout computed for `prompt50` with seed `seed50`
and ambient hash `phZero` (used as a concrete witness instance). -/
def witnessZone : String × Zone := ("offer", ⟨15, 20, 70, 25⟩)

/-- The first element of the blueprint generated for `promptAmazing` with
seed `seedAmazing` and ambient hash `phZero`: the decorative glow circle,
sitting at negative x (used as a concrete witness instance). -/
def witnessGlow : Element :=
  ⟨"shape", "glow_1", -6, 5, 60, 60, some "circle", some "#f69e21", some 0.08,
   none, none, none, none, none, none, none, none, none⟩

/-!
# Theorems

Batteries marks the `Rat` arithmetic operations irreducible; the embedding
evaluates concrete runs of the engine by decidability, so default
reducibility is restored for them in this file.
-/

set_option allowUnsafeReducibility true

attribute [local semireducible] Rat.add Rat.sub Rat.mul Rat.inv Rat.ofScientific

/-! ## Seeded primitives -/

theorem seededInt_bounds (seed minVal maxVal offset : ℤ) (h : minVal ≤ maxVal) :
    minVal ≤ seededInt seed minVal maxVal offset ∧
      seededInt seed minVal maxVal offset ≤ maxVal := by
  have hpos : (0 : ℤ) < maxVal - minVal + 1 := by omega
  have h1 : 0 ≤ (seed + offset).emod (maxVal - minVal + 1) := Int.emod_nonneg _ (by omega)
  have h2 : (seed + offset).emod (maxVal - minVal + 1) < maxVal - minVal + 1 :=
    Int.emod_lt_of_pos _ hpos
  unfold seededInt
  omega

theorem seededIntQ_bounds (seed minVal maxVal offset : ℤ) (h : minVal ≤ maxVal) :
    (minVal : ℚ) ≤ (seededInt seed minVal maxVal offset : ℚ) ∧
      (seededInt seed minVal maxVal offset : ℚ) ≤ (maxVal : ℚ) := by
  obtain ⟨h1, h2⟩ := seededInt_bounds seed minVal maxVal offset h
  exact ⟨by exact_mod_cast h1, by exact_mod_cast h2⟩

theorem seededFloat_bounds (seed offset : ℤ) :
    0 ≤ seededFloat seed offset ∧ seededFloat seed offset < 1 := by
  have h1 : 0 ≤ (seed + offset).emod 1000 := Int.emod_nonneg _ (by norm_num)
  have h2 : (seed + offset).emod 1000 < 1000 := Int.emod_lt_of_pos _ (by norm_num)
  unfold seededFloat
  constructor
  · apply div_nonneg _ (by norm_num)
    exact_mod_cast h1
  · rw [div_lt_one (by norm_num)]
    exact_mod_cast h2

theorem seededChoice_mem {α : Type} (seed : ℤ) (items : List α) (offset : ℤ)
    (h : items ≠ []) : ∃ a ∈ items, seededChoice seed items offset = some a := by
  have hlen : 0 < items.length := List.length_pos.mpr h
  have hnz : (items.length : ℤ) ≠ 0 := by
    exact_mod_cast Nat.pos_iff_ne_zero.mp hlen
  have h0 : 0 ≤ (seed + offset).emod items.length := Int.emod_nonneg _ hnz
  have h1 : (seed + offset).emod items.length < items.length :=
    Int.emod_lt_of_pos _ (by exact_mod_cast hlen)
  have hidx : ((seed + offset).emod items.length).toNat < items.length := by
    rw [Int.toNat_lt h0]
    exact h1
  unfold seededChoice
  rw [if_neg (by simpa [List.isEmpty_iff] using h)]
  exact ⟨items.get ⟨_, hidx⟩, List.get_mem _ _ _, List.get?_eq_get hidx⟩

theorem seededPick_mem (seed : ℤ) (items : List String) (offset : ℤ)
    (h : items ≠ []) : seededPick seed items offset ∈ items := by
  obtain ⟨a, ha, he⟩ := seededChoice_mem seed items offset h
  unfold seededPick
  rw [he]
  exact ha

theorem seededPick_ne_empty (seed : ℤ) (items : List String) (offset : ℤ)
    (h : items ≠ []) (h2 : ∀ s ∈ items, s ≠ "") :
    seededPick seed items offset ≠ "" :=
  h2 _ (seededPick_mem seed items offset h)

/-- C10: the seeded primitives are range-correct for every integer seed and
every integer offset (including the negative offsets arising from hashed zone
names): `_seeded_int(min_val, max_val, offset)` with `min_val ≤ max_val`
returns an integer in `[min_val, max_val]`, `_seeded_float` returns a value
in `[0, 1)`, and `_seeded_choice` on a non-empty list returns an element of
that list. -/
theorem seeded_primitives_range {α : Type} (seed minVal maxVal offset : ℤ)
    (items : List α) (hmm : minVal ≤ maxVal) (hne : items ≠ []) :
    (minVal ≤ seededInt seed minVal maxVal offset ∧
      seededInt seed minVal maxVal offset ≤ maxVal) ∧
    (0 ≤ seededFloat seed offset ∧ seededFloat seed offset < 1) ∧
    (∃ a ∈ items, seededChoice seed items offset = some a) :=
  ⟨seededInt_bounds seed minVal maxVal offset hmm, seededFloat_bounds seed offset,
   seededChoice_mem seed items offset hne⟩

/-- Witness for C10: a concrete seed, a negative offset (an actual CPython
string-hash value), and a concrete non-empty list. -/
theorem seeded_primitives_range_witness :
    ((-3 : ℤ) ≤ seededInt 7 (-3) 4 (-9157555519074820554) ∧
      seededInt 7 (-3) 4 (-9157555519074820554) ≤ 4) ∧
    (0 ≤ seededFloat 7 (-9157555519074820554) ∧
      seededFloat 7 (-9157555519074820554) < 1) ∧
    (∃ a ∈ [(10 : ℤ), 20, 30],
      seededChoice 7 [(10 : ℤ), 20, 30] (-9157555519074820554) = some a) :=
  seeded_primitives_range 7 (-3) 4 (-9157555519074820554) [10, 20, 30]
    (by decide) (by decide)

/-! ## Palette well-formedness -/

theorem hueToRgb_mem (p q t : ℚ) (hp : 0 ≤ p) (hpq : p ≤ q) (hq : q ≤ 1)
    (ht1 : -1 ≤ t) (ht2 : t ≤ 2) : 0 ≤ hueToRgb p q t ∧ hueToRgb p q t ≤ 1 := by
  unfold hueToRgb
  dsimp only
  split_ifs <;> constructor <;> nlinarith

theorem pyTrunc_bounds (x : ℚ) (h1 : 0 ≤ x) (h2 : x ≤ 1) :
    0 ≤ pyTrunc (x * 255) ∧ pyTrunc (x * 255) ≤ 255 := by
  have hx0 : (0 : ℚ) ≤ x * 255 := by nlinarith
  have hx1 : x * 255 ≤ 255 := by nlinarith
  unfold pyTrunc
  rw [if_neg (by linarith)]
  constructor
  · exact Int.floor_nonneg.mpr hx0
  · have : (⌊x * 255⌋ : ℚ) ≤ 255 := le_trans (Int.floor_le _) hx1
    exact_mod_cast this

theorem hexDigitChar_hex (n : ℕ) (h : n < 16) : isHexDigitA (hexDigitChar n) = true := by
  interval_cases n <;> decide

theorem hexStrAux_small (fuel n : ℕ) (hf : 0 < fuel) (h : n < 16) :
    hexStrAux fuel n = [hexDigitChar n] := by
  cases fuel with
  | zero => omega
  | succ m => simp [hexStrAux, h]

theorem fmt02x_hex (n : ℕ) (h : n ≤ 255) :
    (fmt02x n).length = 2 ∧ ∀ c ∈ fmt02x n, isHexDigitA c = true := by
  by_cases h16 : n < 16
  · have he : hexStr n = [hexDigitChar n] := hexStrAux_small (n + 1) n (by omega) h16
    unfold fmt02x
    rw [he]
    refine ⟨rfl, ?_⟩
    intro c hc
    simp only [List.length_cons, List.length_nil] at hc
    rcases (by simpa using hc : c = '0' ∨ c = hexDigitChar n) with rfl | rfl
    · decide
    · exact hexDigitChar_hex n h16
  · have hdiv : n / 16 < 16 := by omega
    have hfuel : 0 < n := by omega
    have he : hexStr n = [hexDigitChar (n / 16), hexDigitChar (n % 16)] := by
      unfold hexStr hexStrAux
      rw [if_neg h16, hexStrAux_small n (n / 16) hfuel hdiv]
      rfl
    unfold fmt02x
    rw [he]
    refine ⟨rfl, ?_⟩
    intro c hc
    rcases (by simpa using hc : c = hexDigitChar (n / 16) ∨ c = hexDigitChar (n % 16)) with rfl | rfl
    · exact hexDigitChar_hex _ hdiv
    · exact hexDigitChar_hex _ (Nat.mod_lt _ (by omega))

theorem isHexColorB_mk (d1 d2 d3 : List Char)
    (h1 : d1.length = 2 ∧ ∀ c ∈ d1, isHexDigitA c = true)
    (h2 : d2.length = 2 ∧ ∀ c ∈ d2, isHexDigitA c = true)
    (h3 : d3.length = 2 ∧ ∀ c ∈ d3, isHexDigitA c = true) :
    isHexColorB (String.mk ('#' :: (d1 ++ d2 ++ d3))) = true := by
  unfold isHexColorB
  have hlen : (String.mk ('#' :: (d1 ++ d2 ++ d3))).length = 7 := by
    simp [String.length, h1.1, h2.1, h3.1]
  rw [hlen]
  simp only [beq_self_eq_true, Bool.true_and]
  show ('#' == '#' && (d1 ++ d2 ++ d3).all isHexDigitA) = true
  simp only [Bool.and_eq_true, List.all_eq_true, List.mem_append]
  refine ⟨rfl, ?_⟩
  rintro c ((hc | hc) | hc)
  · exact h1.2 c hc
  · exact h2.2 c hc
  · exact h3.2 c hc

theorem fmt02x_of_unit (c : ℚ) (h1 : 0 ≤ c) (h2 : c ≤ 1) :
    (fmt02x (pyTrunc (c * 255)).toNat).length = 2 ∧
      ∀ ch ∈ fmt02x (pyTrunc (c * 255)).toNat, isHexDigitA ch = true := by
  obtain ⟨hb1, hb2⟩ := pyTrunc_bounds c h1 h2
  exact fmt02x_hex _ (by omega)

theorem hslPQ_bounds (s l : ℚ) (hs1 : 0 ≤ s) (hs2 : s ≤ 1) (hl1 : 0 ≤ l) (hl2 : l ≤ 1) :
    0 ≤ hslP s l ∧ hslP s l ≤ hslQ s l ∧ hslQ s l ≤ 1 := by
  unfold hslP hslQ
  split_ifs with hl <;> refine ⟨?_, ?_, ?_⟩ <;> nlinarith

theorem hslRgbTriple_mem (h s l : ℚ) (hh1 : -(2/3 : ℚ) ≤ h) (hh2 : h ≤ 5/3)
    (hs1 : 0 ≤ s) (hs2 : s ≤ 1) (hl1 : 0 ≤ l) (hl2 : l ≤ 1) :
    (0 ≤ (hslRgbTriple h s l).1 ∧ (hslRgbTriple h s l).1 ≤ 1) ∧
    (0 ≤ (hslRgbTriple h s l).2.1 ∧ (hslRgbTriple h s l).2.1 ≤ 1) ∧
    (0 ≤ (hslRgbTriple h s l).2.2 ∧ (hslRgbTriple h s l).2.2 ≤ 1) := by
  obtain ⟨hp, hpq, hq⟩ := hslPQ_bounds s l hs1 hs2 hl1 hl2
  unfold hslRgbTriple
  split_ifs with hs0
  · exact ⟨⟨hl1, hl2⟩, ⟨hl1, hl2⟩, ⟨hl1, hl2⟩⟩
  · exact ⟨hueToRgb_mem _ _ _ hp hpq hq (by linarith) (by linarith),
      hueToRgb_mem _ _ _ hp hpq hq (by linarith) (by linarith),
      hueToRgb_mem _ _ _ hp hpq hq (by linarith) (by linarith)⟩

theorem hslToHex_isHex (h s l : ℚ) (hh1 : -240 ≤ h) (hh2 : h ≤ 600)
    (hs1 : 0 ≤ s) (hs2 : s ≤ 100) (hl1 : 0 ≤ l) (hl2 : l ≤ 100) :
    isHexColorB (hslToHex h s l) = true := by
  have hd1 : -(2/3 : ℚ) ≤ h / 360 := by
    rw [le_div_iff (by norm_num : (0:ℚ) < 360)]; linarith
  have hd2 : h / 360 ≤ 5/3 := by
    rw [div_le_iff (by norm_num : (0:ℚ) < 360)]; linarith
  have hsx1 : (0:ℚ) ≤ s / 100 := div_nonneg hs1 (by norm_num)
  have hsx2 : s / 100 ≤ 1 := by rw [div_le_one (by norm_num : (0:ℚ) < 100)]; linarith
  have hlx1 : (0:ℚ) ≤ l / 100 := div_nonneg hl1 (by norm_num)
  have hlx2 : l / 100 ≤ 1 := by rw [div_le_one (by norm_num : (0:ℚ) < 100)]; linarith
  obtain ⟨⟨r1, r2⟩, ⟨g1, g2⟩, ⟨b1, b2⟩⟩ :=
    hslRgbTriple_mem (h / 360) (s / 100) (l / 100) hd1 hd2 hsx1 hsx2 hlx1 hlx2
  exact isHexColorB_mk _ _ _ (fmt02x_of_unit _ r1 r2) (fmt02x_of_unit _ g1 g2)
    (fmt02x_of_unit _ b1 b2)

theorem paletteBaseHue_bounds (seed : ℤ) (a : Analysis) :
    -15 ≤ paletteBaseHue seed a ∧ paletteBaseHue seed a ≤ 360 := by
  unfold paletteBaseHue
  split
  · rename_i e hfind
    have hmem : e ∈ businessHueAdjust := List.mem_of_find?_eq_some hfind
    have he : 0 ≤ e.2 ∧ e.2 ≤ 330 := by
      have hall : ∀ x ∈ businessHueAdjust, 0 ≤ x.2 ∧ x.2 ≤ 330 := by decide
      exact hall e hmem
    obtain ⟨hl, hu⟩ := seededInt_bounds seed (-15) 15 101 (by norm_num)
    dsimp only
    omega
  · unfold hueRangeOf
    split_ifs <;> dsimp only
    · obtain ⟨hl, hu⟩ := seededInt_bounds seed 15 45 100 (by norm_num); omega
    · obtain ⟨hl, hu⟩ := seededInt_bounds seed 200 240 100 (by norm_num); omega
    · obtain ⟨hl, hu⟩ := seededInt_bounds seed 0 360 100 (by norm_num); omega
    · obtain ⟨hl, hu⟩ := seededInt_bounds seed 0 360 100 (by norm_num); omega

theorem paletteSaturation_bounds (seed : ℤ) (a : Analysis) :
    30 ≤ paletteSaturation seed a ∧ paletteSaturation seed a ≤ 100 := by
  unfold paletteSaturation
  exact ⟨le_max_left _ _, max_le (by norm_num) (min_le_left _ _)⟩

theorem paletteBgLightness_bounds (seed : ℤ) (a : Analysis) :
    8 ≤ paletteBgLightness seed a ∧ paletteBgLightness seed a ≤ 35 := by
  unfold paletteBgLightness
  split_ifs
  · obtain ⟨hl, hu⟩ := seededInt_bounds seed 8 18 103 (by norm_num); omega
  · obtain ⟨hl, hu⟩ := seededInt_bounds seed 20 35 103 (by norm_num); omega
  · obtain ⟨hl, hu⟩ := seededInt_bounds seed 12 25 103 (by norm_num); omega

theorem paletteTextLightness_bounds (a : Analysis) :
    90 ≤ paletteTextLightness a ∧ paletteTextLightness a ≤ 95 := by
  unfold paletteTextLightness
  split_ifs <;> norm_num

/-- C6: for every prompt analysis and seed, every color field of the
synthesized palette (accent, secondary, both background stops, both text
colors) is a well-formed `#`-prefixed string of exactly six hex digits, the
gradient stop list has length at least 1, and the saturation fed into color
generation is clamped to `[30, 100]`. -/
theorem palette_validity (seed : ℤ) (a : Analysis) :
    (30 ≤ paletteSaturation seed a ∧ paletteSaturation seed a ≤ 100) ∧
    isHexColorB (createCustomPalette seed a).accent = true ∧
    isHexColorB (createCustomPalette seed a).secondary = true ∧
    isHexColorB (createCustomPalette seed a).background_primary = true ∧
    isHexColorB (createCustomPalette seed a).background_secondary = true ∧
    isHexColorB (createCustomPalette seed a).text_primary = true ∧
    isHexColorB (createCustomPalette seed a).text_secondary = true ∧
    1 ≤ (createCustomPalette seed a).background_colors.length := by
  obtain ⟨hb1, hb2⟩ := paletteBaseHue_bounds seed a
  obtain ⟨hs1, hs2⟩ := paletteSaturation_bounds seed a
  obtain ⟨hg1, hg2⟩ := paletteBgLightness_bounds seed a
  obtain ⟨ht1, ht2⟩ := paletteTextLightness_bounds a
  have hsec1 : 0 ≤ (paletteBaseHue seed a + 30 + seededInt seed 0 60 104).emod 360 :=
    Int.emod_nonneg _ (by norm_num)
  have hsec2 : (paletteBaseHue seed a + 30 + seededInt seed 0 60 104).emod 360 < 360 :=
    Int.emod_lt_of_pos _ (by norm_num)
  have hbg1 : 0 ≤ (paletteBaseHue seed a + 20).emod 360 := Int.emod_nonneg _ (by norm_num)
  have hbg2 : (paletteBaseHue seed a + 20).emod 360 < 360 := Int.emod_lt_of_pos _ (by norm_num)
  have hf3 : 0 ≤ Int.fdiv (paletteSaturation seed a) 3 ∧
      Int.fdiv (paletteSaturation seed a) 3 ≤ 100 := by
    rw [Int.fdiv_eq_ediv _ (by norm_num : (0:ℤ) ≤ 3)]
    exact ⟨Int.ediv_nonneg (by omega) (by norm_num),
      le_trans (Int.ediv_le_self _ (by omega)) hs2⟩
  have hf4 : 0 ≤ Int.fdiv (paletteSaturation seed a) 4 ∧
      Int.fdiv (paletteSaturation seed a) 4 ≤ 100 := by
    rw [Int.fdiv_eq_ediv _ (by norm_num : (0:ℤ) ≤ 4)]
    exact ⟨Int.ediv_nonneg (by omega) (by norm_num),
      le_trans (Int.ediv_le_self _ (by omega)) hs2⟩
  have qb1 : (-15 : ℚ) ≤ (paletteBaseHue seed a : ℚ) := by exact_mod_cast hb1
  have qb2 : (paletteBaseHue seed a : ℚ) ≤ 360 := by exact_mod_cast hb2
  have qs1 : (30 : ℚ) ≤ (paletteSaturation seed a : ℚ) := by exact_mod_cast hs1
  have qs2 : (paletteSaturation seed a : ℚ) ≤ 100 := by exact_mod_cast hs2
  have qg1 : (8 : ℚ) ≤ (paletteBgLightness seed a : ℚ) := by exact_mod_cast hg1
  have qg2 : (paletteBgLightness seed a : ℚ) ≤ 35 := by exact_mod_cast hg2
  have qt1 : (90 : ℚ) ≤ (paletteTextLightness a : ℚ) := by exact_mod_cast ht1
  have qt2 : (paletteTextLightness a : ℚ) ≤ 95 := by exact_mod_cast ht2
  have qsec1 : (0 : ℚ) ≤
      ((paletteBaseHue seed a + 30 + seededInt seed 0 60 104).emod 360 : ℚ) := by
    exact_mod_cast hsec1
  have qsec2 : ((paletteBaseHue seed a + 30 + seededInt seed 0 60 104).emod 360 : ℚ) ≤ 360 := by
    exact_mod_cast hsec2.le
  have qbg1 : (0 : ℚ) ≤ ((paletteBaseHue seed a + 20).emod 360 : ℚ) := by exact_mod_cast hbg1
  have qbg2 : ((paletteBaseHue seed a + 20).emod 360 : ℚ) ≤ 360 := by exact_mod_cast hbg2.le
  have qf31 : (0 : ℚ) ≤ (Int.fdiv (paletteSaturation seed a) 3 : ℚ) := by exact_mod_cast hf3.1
  have qf32 : (Int.fdiv (paletteSaturation seed a) 3 : ℚ) ≤ 100 := by exact_mod_cast hf3.2
  have qf41 : (0 : ℚ) ≤ (Int.fdiv (paletteSaturation seed a) 4 : ℚ) := by exact_mod_cast hf4.1
  have qf42 : (Int.fdiv (paletteSaturation seed a) 4 : ℚ) ≤ 100 := by exact_mod_cast hf4.2
  simp only [createCustomPalette]
  refine ⟨⟨hs1, hs2⟩, ?_, ?_, ?_, ?_, ?_, ?_, by norm_num⟩
  · exact hslToHex_isHex _ _ _ (by linarith) (by linarith) (by linarith) (by linarith)
      (by norm_num) (by norm_num)
  · exact hslToHex_isHex _ _ _ (by linarith) (by linarith) (by linarith) (by linarith)
      (by norm_num) (by norm_num)
  · exact hslToHex_isHex _ _ _ (by linarith) (by linarith) (by linarith) (by linarith)
      (by linarith) (by linarith)
  · exact hslToHex_isHex _ _ _ (by linarith) (by linarith) (by linarith) (by linarith)
      (by linarith) (by linarith)
  · exact hslToHex_isHex _ _ _ (by linarith) (by linarith) (by norm_num) (by norm_num)
      (by linarith) (by linarith)
  · exact hslToHex_isHex _ _ _ (by linarith) (by linarith) (by norm_num) (by norm_num)
      (by linarith) (by linarith)

/-! ## Layout geometry -/

theorem zoneXW_bounds (seed : ℤ) (ph : String → ℤ) (al n : String) :
    5 ≤ (zoneXW seed ph al n).1 ∧ (zoneXW seed ph al n).1 ≤ 30 ∧
    65 ≤ (zoneXW seed ph al n).2 ∧ (zoneXW seed ph al n).2 ≤ 90 ∧
    (zoneXW seed ph al n).1 + (zoneXW seed ph al n).2 ≤ 95 := by
  obtain ⟨a1, a2⟩ := seededIntQ_bounds seed 0 3 (ph n) (by norm_num)
  obtain ⟨b1, b2⟩ := seededIntQ_bounds seed (-5) 10 (ph n + 1) (by norm_num)
  obtain ⟨c1, c2⟩ := seededIntQ_bounds seed (-10) 10 (ph n + 1) (by norm_num)
  push_cast at a1 a2 b1 b2 c1 c2
  unfold zoneXW
  split_ifs <;> dsimp only <;>
    refine ⟨by linarith, by linarith, by linarith, by linarith, by linarith⟩

theorem zoneOK_mk (seed : ℤ) (ph : String → ℤ) (al : String) (name : String) (y h : ℚ)
    (hy1 : 8 ≤ y) (hy2 : y ≤ 102) (hh1 : 0 < h) (hh2 : h ≤ 70)
    (hoff : name = "offer" → h = 25)
    (hbh : (name = "brand" ∨ name = "headline") → y + h ≤ 76) :
    ZoneOK (name, ⟨(zoneXW seed ph al name).1, y, (zoneXW seed ph al name).2, h⟩) := by
  obtain ⟨x1, x2, w1, w2, xw⟩ := zoneXW_bounds seed ph al name
  exact ⟨x1, x2, w1, w2, xw, hh1, hh2, hy1, hy2, hoff, hbh⟩

theorem placeZones_y_lb (seed : ℤ) (ph : String → ℤ) (al : String) (sp : ℚ)
    (heights : List (String × ℚ)) (y0 : ℚ) (hsp : 0 ≤ sp)
    (hh : ∀ p ∈ heights, 0 ≤ p.2) :
    ∀ nz ∈ placeZones seed ph al sp heights y0, y0 ≤ nz.2.y := by
  induction heights generalizing y0 with
  | nil => intro nz h; simp [placeZones] at h
  | cons head tail ih =>
    intro nz h
    obtain ⟨name, hv⟩ := head
    simp only [placeZones, List.mem_cons] at h
    rcases h with rfl | h
    · exact le_refl _
    · have h0 : 0 ≤ hv := hh (name, hv) (by simp)
      have := ih (y0 + hv + sp) (fun p hp => hh p (List.mem_cons_of_mem _ hp)) nz h
      linarith

theorem placeZones_chain (seed : ℤ) (ph : String → ℤ) (al : String) (sp : ℚ)
    (heights : List (String × ℚ)) (y0 : ℚ) :
    List.Chain' (fun p q => q.2.y = p.2.y + p.2.height + sp)
      (placeZones seed ph al sp heights y0) := by
  induction heights generalizing y0 with
  | nil => simp [placeZones]
  | cons head tail ih =>
    obtain ⟨name, hv⟩ := head
    simp only [placeZones]
    rw [List.chain'_cons']
    refine ⟨?_, ih (y0 + hv + sp)⟩
    intro b hb
    cases tail with
    | nil => simp [placeZones] at hb
    | cons h2 t2 =>
      obtain ⟨n2, v2⟩ := h2
      simp only [placeZones, List.head?_cons, Option.mem_def, Option.some.injEq] at hb
      subst hb
      rfl

theorem placeZones_pairwise (seed : ℤ) (ph : String → ℤ) (al : String) (sp : ℚ)
    (heights : List (String × ℚ)) (y0 : ℚ) (hsp : 0 < sp)
    (hh : ∀ p ∈ heights, 0 ≤ p.2) :
    List.Pairwise (fun p q => p.2.y + p.2.height < q.2.y)
      (placeZones seed ph al sp heights y0) := by
  induction heights generalizing y0 with
  | nil => simp [placeZones]
  | cons head tail ih =>
    obtain ⟨name, hv⟩ := head
    simp only [placeZones, List.pairwise_cons]
    constructor
    · intro q hq
      have hlb := placeZones_y_lb seed ph al sp tail (y0 + hv + sp) hsp.le
        (fun p hp => hh p (List.mem_cons_of_mem _ hp)) q hq
      show y0 + hv < q.2.y
      linarith
    · exact ih (y0 + hv + sp) (fun p hp => hh p (List.mem_cons_of_mem _ hp))

theorem hierarchy_eq (a : Analysis) :
    (developCreativeDirection a).hierarchy =
      (if a.has_offer && a.offer_details.isSome then ["offer", "brand", "cta", "trust"]
       else if a.business_scale == "small_local" then
         ["brand", "value_prop", "trust_signals", "cta"]
       else if a.excitement_level > 5 then ["headline", "brand", "details", "cta"]
       else ["brand", "tagline", "cta"]) := by
  unfold developCreativeDirection
  split_ifs <;> rfl

theorem zoneHeights_offerH :
    zoneHeights ["offer", "brand", "cta", "trust"] =
      [("offer", 25), ("brand", 20), ("cta", 35/3), ("trust", 40/3)] := by decide

theorem zoneHeights_smallH :
    zoneHeights ["brand", "value_prop", "trust_signals", "cta"] =
      [("brand", 280/11), ("value_prop", 560/33), ("trust_signals", 140/11),
       ("cta", 490/33)] := by decide

theorem zoneHeights_exciteH :
    zoneHeights ["headline", "brand", "details", "cta"] =
      [("headline", 490/19), ("brand", 420/19), ("details", 175/19),
       ("cta", 245/19)] := by decide

theorem zoneHeights_defaultH :
    zoneHeights ["brand", "tagline", "cta"] =
      [("brand", 168/5), ("tagline", 84/5), ("cta", 98/5)] := by decide

theorem layoutContentZones_spec (seed : ℤ) (ph : String → ℤ) (a : Analysis) :
    ∀ nz ∈ layoutContentZones seed ph a,
      ZoneOK nz ∧ (nz.2.y ≤ 100 ∨ overflowConfig a) := by
  unfold layoutContentZones
  rw [hierarchy_eq]
  by_cases h1 : (a.has_offer && a.offer_details.isSome) = true <;>
    [skip; (by_cases h2 : (a.business_scale == "small_local") = true)] <;>
    [skip; skip; (by_cases h3 : a.excitement_level > 5)]
  case pos =>
    rw [if_pos h1, zoneHeights_offerH]
    by_cases hd : (a.density_preference == "dense") = true <;>
      [skip; (by_cases hf : (a.density_preference == "focused") = true)]
    case pos =>
      simp only [topMarginOf, spacingOf, if_pos hd]
      intro nz hmem
      simp only [placeZones, List.mem_cons, List.not_mem_nil, or_false] at hmem
      rcases hmem with rfl | rfl | rfl | rfl <;>
        refine ⟨zoneOK_mk seed ph _ _ _ _ (by norm_num) (by norm_num) (by norm_num)
          (by norm_num)
          (by intro hx; first | exact absurd hx (by decide) | norm_num)
          (by intro hx; first
            | (rcases hx with hx | hx <;> exact absurd hx (by decide)) | norm_num),
          Or.inl (by norm_num)⟩
    case pos =>
      simp only [topMarginOf, spacingOf, if_neg hd, if_pos hf]
      intro nz hmem
      simp only [placeZones, List.mem_cons, List.not_mem_nil, or_false] at hmem
      have hover : overflowConfig a := by
        refine ⟨by simpa using hf, Or.inl ?_⟩
        rw [hierarchy_eq, if_pos h1]
      rcases hmem with rfl | rfl | rfl | rfl <;>
        refine ⟨zoneOK_mk seed ph _ _ _ _ (by norm_num) (by norm_num) (by norm_num)
          (by norm_num)
          (by intro hx; first | exact absurd hx (by decide) | norm_num)
          (by intro hx; first
            | (rcases hx with hx | hx <;> exact absurd hx (by decide)) | norm_num),
          Or.inr hover⟩
    case neg =>
      simp only [topMarginOf, spacingOf, if_neg hd, if_neg hf]
      intro nz hmem
      simp only [placeZones, List.mem_cons, List.not_mem_nil, or_false] at hmem
      rcases hmem with rfl | rfl | rfl | rfl <;>
        refine ⟨zoneOK_mk seed ph _ _ _ _ (by norm_num) (by norm_num) (by norm_num)
          (by norm_num)
          (by intro hx; first | exact absurd hx (by decide) | norm_num)
          (by intro hx; first
            | (rcases hx with hx | hx <;> exact absurd hx (by decide)) | norm_num),
          Or.inl (by norm_num)⟩
  case pos =>
    rw [if_neg h1, if_pos h2, zoneHeights_smallH]
    by_cases hd : (a.density_preference == "dense") = true <;>
      [skip; (by_cases hf : (a.density_preference == "focused") = true)] <;>
      [simp only [topMarginOf, spacingOf, if_pos hd];
       simp only [topMarginOf, spacingOf, if_neg hd, if_pos hf];
       simp only [topMarginOf, spacingOf, if_neg hd, if_neg hf]] <;>
      (intro nz hmem;
       simp only [placeZones, List.mem_cons, List.not_mem_nil, or_false] at hmem;
       rcases hmem with rfl | rfl | rfl | rfl <;>
        refine ⟨zoneOK_mk seed ph _ _ _ _ (by norm_num) (by norm_num) (by norm_num)
          (by norm_num)
          (by intro hx; first | exact absurd hx (by decide) | norm_num)
          (by intro hx; first
            | (rcases hx with hx | hx <;> exact absurd hx (by decide)) | norm_num),
          Or.inl (by norm_num)⟩)
  case pos =>
    rw [if_neg h1, if_neg h2, if_pos h3, zoneHeights_exciteH]
    by_cases hd : (a.density_preference == "dense") = true <;>
      [skip; (by_cases hf : (a.density_preference == "focused") = true)]
    case pos =>
      simp only [topMarginOf, spacingOf, if_pos hd]
      intro nz hmem
      simp only [placeZones, List.mem_cons, List.not_mem_nil, or_false] at hmem
      rcases hmem with rfl | rfl | rfl | rfl <;>
        refine ⟨zoneOK_mk seed ph _ _ _ _ (by norm_num) (by norm_num) (by norm_num)
          (by norm_num)
          (by intro hx; first | exact absurd hx (by decide) | norm_num)
          (by intro hx; first
            | (rcases hx with hx | hx <;> exact absurd hx (by decide)) | norm_num),
          Or.inl (by norm_num)⟩
    case pos =>
      simp only [topMarginOf, spacingOf, if_neg hd, if_pos hf]
      intro nz hmem
      simp only [placeZones, List.mem_cons, List.not_mem_nil, or_false] at hmem
      have hover : overflowConfig a := by
        refine ⟨by simpa using hf, Or.inr ?_⟩
        rw [hierarchy_eq, if_neg h1, if_neg h2, if_pos h3]
      rcases hmem with rfl | rfl | rfl | rfl <;>
        refine ⟨zoneOK_mk seed ph _ _ _ _ (by norm_num) (by norm_num) (by norm_num)
          (by norm_num)
          (by intro hx; first | exact absurd hx (by decide) | norm_num)
          (by intro hx; first
            | (rcases hx with hx | hx <;> exact absurd hx (by decide)) | norm_num),
          Or.inr hover⟩
    case neg =>
      simp only [topMarginOf, spacingOf, if_neg hd, if_neg hf]
      intro nz hmem
      simp only [placeZones, List.mem_cons, List.not_mem_nil, or_false] at hmem
      rcases hmem with rfl | rfl | rfl | rfl <;>
        refine ⟨zoneOK_mk seed ph _ _ _ _ (by norm_num) (by norm_num) (by norm_num)
          (by norm_num)
          (by intro hx; first | exact absurd hx (by decide) | norm_num)
          (by intro hx; first
            | (rcases hx with hx | hx <;> exact absurd hx (by decide)) | norm_num),
          Or.inl (by norm_num)⟩
  case neg =>
    rw [if_neg h1, if_neg h2, if_neg h3, zoneHeights_defaultH]
    by_cases hd : (a.density_preference == "dense") = true <;>
      [skip; (by_cases hf : (a.density_preference == "focused") = true)] <;>
      [simp only [topMarginOf, spacingOf, if_pos hd];
       simp only [topMarginOf, spacingOf, if_neg hd, if_pos hf];
       simp only [topMarginOf, spacingOf, if_neg hd, if_neg hf]] <;>
      (intro nz hmem;
       simp only [placeZones, List.mem_cons, List.not_mem_nil, or_false] at hmem;
       rcases hmem with rfl | rfl | rfl <;>
        refine ⟨zoneOK_mk seed ph _ _ _ _ (by norm_num) (by norm_num) (by norm_num)
          (by norm_num)
          (by intro hx; first | exact absurd hx (by decide) | norm_num)
          (by intro hx; first
            | (rcases hx with hx | hx <;> exact absurd hx (by decide)) | norm_num),
          Or.inl (by norm_num)⟩)

/-- C2 counterexample: for the concrete prompt "50% off" (offer hierarchy,
focused density) the layout planner places the final "trust" zone at
y = 302/3 > 100, so not all zone fields lie within [0, 100]. -/
theorem zone_bounds_counterexample :
    ∃ nz ∈ (inventLayout seed50 phZero (analysisOf id prompt50)).zones,
      100 < nz.2.y := by decide

/-- C2 amended: for every seed, ambient hash, and analysis, every zone of the
planned layout has x in [5, 30], width in [65, 90], x + width at most 95,
height in (0, 70], and y in [8, 102]; y is also at most 100 except possibly
under focused density combined with the offer hierarchy
[offer, brand, cta, trust] or the excitement hierarchy
[headline, brand, details, cta], where cumulative cursor advancement can push
the final zone past 100 (there is no clamp). -/
theorem zone_bounds_amended (seed : ℤ) (ph : String → ℤ) (a : Analysis) :
    ∀ nz ∈ (inventLayout seed ph a).zones,
      (5 ≤ nz.2.x ∧ nz.2.x ≤ 30 ∧ 65 ≤ nz.2.width ∧ nz.2.width ≤ 90 ∧
        nz.2.x + nz.2.width ≤ 95 ∧ 0 < nz.2.height ∧ nz.2.height ≤ 70 ∧
        8 ≤ nz.2.y ∧ nz.2.y ≤ 102) ∧
      (nz.2.y ≤ 100 ∨ overflowConfig a) := by
  intro nz hmem
  have hmain : nz ∈ layoutContentZones seed ph a ∨
      nz = ("footer", (⟨5, 90, 90, 8⟩ : Zone)) := by
    unfold inventLayout at hmem
    dsimp only at hmem
    by_cases hc : 100 - layoutFinalY a > 15
    · rw [if_pos hc] at hmem
      rcases List.mem_append.mp hmem with h | h
      · exact Or.inl h
      · exact Or.inr (by simpa using h)
    · rw [if_neg hc] at hmem
      exact Or.inl hmem
  rcases hmain with h | rfl
  · obtain ⟨hok, hdisj⟩ := layoutContentZones_spec seed ph a nz h
    obtain ⟨x1, x2, w1, w2, xw, h1, h2, y1, y2, _, _⟩ := hok
    exact ⟨⟨x1, x2, w1, w2, xw, h1, h2, y1, y2⟩, hdisj⟩
  · refine ⟨?_, Or.inl (by norm_num)⟩
    refine ⟨?_, ?_, ?_, ?_, ?_, ?_, ?_, ?_, ?_⟩ <;> first | norm_num | decide

/-- Witness for the amended C2: the offer zone of the concrete "50% off"
layout satisfies the bounds. -/
theorem zone_bounds_amended_witness :
    ((5:ℚ) ≤ witnessZone.2.x ∧ witnessZone.2.x ≤ 30 ∧ 65 ≤ witnessZone.2.width ∧
      witnessZone.2.width ≤ 90 ∧ witnessZone.2.x + witnessZone.2.width ≤ 95 ∧
      0 < witnessZone.2.height ∧ witnessZone.2.height ≤ 70 ∧
      8 ≤ witnessZone.2.y ∧ witnessZone.2.y ≤ 102) ∧
    (witnessZone.2.y ≤ 100 ∨ overflowConfig (analysisOf id prompt50)) :=
  zone_bounds_amended seed50 phZero (analysisOf id prompt50) witnessZone (by decide)

/-- C7: for every seed, ambient hash, and analysis, the primary content zones
are laid out by a monotonically advancing y-cursor with strictly positive
spacing: each zone starts exactly at the previous zone y plus its height plus
the density spacing, and consequently no two content zones vertically
overlap. -/
theorem zones_monotonic_no_overlap (seed : ℤ) (ph : String → ℤ) (a : Analysis) :
    0 < spacingOf a.density_preference ∧
    List.Chain' (fun p q => q.2.y = p.2.y + p.2.height + spacingOf a.density_preference)
      (layoutContentZones seed ph a) ∧
    List.Pairwise (fun p q => p.2.y + p.2.height < q.2.y)
      (layoutContentZones seed ph a) := by
  have hsp : 0 < spacingOf a.density_preference := by
    unfold spacingOf; split_ifs <;> norm_num
  have hh : ∀ p ∈ zoneHeights (developCreativeDirection a).hierarchy, 0 ≤ p.2 := by
    intro p hp
    simp only [zoneHeights, List.mem_map] at hp
    obtain ⟨z, hz, rfl⟩ := hp
    refine mul_nonneg (div_nonneg ?_ ?_) (by norm_num)
    · unfold importanceWeight; split_ifs <;> norm_num
    · refine List.sum_nonneg ?_
      intro x hx
      simp only [List.mem_map] at hx
      obtain ⟨z2, hz2, rfl⟩ := hx
      unfold importanceWeight; split_ifs <;> norm_num
  exact ⟨hsp, placeZones_chain seed ph _ _ _ _, placeZones_pairwise seed ph _ _ _ _ hsp hh⟩

/-! ## String and matcher facts for the copy composer -/

theorem string_data_eq_empty (t : String) (h : t.data = []) : t = "" := by
  cases t
  simp only [String.data] at h
  subst h
  rfl

theorem stringMk_cons_ne (c : Char) (l : List Char) : String.mk (c :: l) ≠ "" := by
  intro h
  have h2 := congrArg String.data h
  simp at h2

theorem append_ne_left (s t : String) (h : s ≠ "") : s ++ t ≠ "" := by
  intro he
  have h2 := congrArg String.data he
  rw [String.data_append] at h2
  rcases List.append_eq_nil.mp h2 with ⟨h3, _⟩
  exact h (string_data_eq_empty s h3)

theorem append_ne_right (s t : String) (h : t ≠ "") : s ++ t ≠ "" := by
  intro he
  have h2 := congrArg String.data he
  rw [String.data_append] at h2
  rcases List.append_eq_nil.mp h2 with ⟨_, h4⟩
  exact h (string_data_eq_empty t h4)

theorem searchStr_prop (m : List Char → Option String) (P : String → Prop)
    (hm : ∀ cs s, m cs = some s → P s) :
    ∀ cs s, searchStr m cs = some s → P s := by
  intro cs
  induction cs with
  | nil => intro s h; exact hm [] s (by simpa [searchStr] using h)
  | cons c cs2 ih =>
    intro s h
    unfold searchStr at h
    rcases hmc : m (c :: cs2) with _ | r <;> rw [hmc] at h
    · exact ih s h
    · cases h; exact hm _ _ hmc

theorem stringMk_ne_of_ne_nil (xs : List Char) (hx : xs ≠ []) : String.mk xs ≠ "" := by
  intro h
  exact hx (by simpa using congrArg String.data h)

theorem matchCapWordCS_ne (cs w r : List Char)
    (h : matchCapWordCS cs = some (w, r)) : ∃ c l, w = c :: l := by
  cases cs with
  | nil => exact absurd h (by simp [matchCapWordCS])
  | cons c cs2 =>
    simp only [matchCapWordCS] at h
    rcases hspan : cs2.span isLetterA with ⟨run, rest⟩
    rw [hspan] at h
    by_cases hu : isUpperA c = true <;> simp [hu] at h
    exact ⟨c, run, h.2.1.symm⟩

theorem matchCapLowWord_ne (cs w r : List Char)
    (h : matchCapLowWord cs = some (w, r)) : ∃ c l, w = c :: l := by
  cases cs with
  | nil => exact absurd h (by simp [matchCapLowWord])
  | cons c cs2 =>
    simp only [matchCapLowWord] at h
    rcases hspan : cs2.span isLowerA with ⟨run, rest⟩
    rw [hspan] at h
    by_cases hu : isUpperA c = true <;> simp [hu] at h
    exact ⟨c, run, h.2.1.symm⟩

theorem matchWordCI_ne (cs w r : List Char)
    (h : matchWordCI cs = some (w, r)) : ∃ c l, w = c :: l := by
  cases cs with
  | nil => exact absurd h (by simp [matchWordCI])
  | cons c cs2 =>
    simp only [matchWordCI] at h
    rcases hspan : cs2.span isLetterA with ⟨run, rest⟩
    rw [hspan] at h
    by_cases hu : isLetterA c = true <;> simp [hu] at h
    exact ⟨c, run, h.2.1.symm⟩

theorem matchP1At_ne (cs : List Char) (s : String) (h : matchP1At cs = some s) :
    s ≠ "" := by
  unfold matchP1At at h
  rcases h1 : matchCapWordCS cs with _ | ⟨w1, r1⟩ <;> rw [h1] at h
  · exact absurd h (by simp)
  · obtain ⟨c, l, rfl⟩ := matchCapWordCS_ne cs w1 r1 h1
    dsimp only at h
    repeat' split at h
    all_goals first
      | exact Option.noConfusion h
      | (injection h with h2; subst h2; apply stringMk_ne_of_ne_nil; simp)

theorem matchP2At_ne (cs : List Char) (s : String) (h : matchP2At cs = some s) :
    s ≠ "" := by
  unfold matchP2At at h
  rcases h1 : matchWordCI cs with _ | ⟨w1, r1⟩ <;> rw [h1] at h
  · exact Option.noConfusion h
  · obtain ⟨c, l, rfl⟩ := matchWordCI_ne cs w1 r1 h1
    dsimp only at h
    split at h
    · rename_i r heq
      injection h with h2
      subst h2
      repeat' split at heq
      all_goals first
        | exact Option.noConfusion heq
        | (injection heq with h3; rw [← h3]; apply stringMk_ne_of_ne_nil; simp)
    · rename_i heq
      repeat' split at h
      all_goals first
        | exact Option.noConfusion h
        | (injection h with h2; subst h2; apply stringMk_ne_of_ne_nil; simp)

theorem matchP2bAt_ne (cs : List Char) (s : String) (h : matchP2bAt cs = some s) :
    s ≠ "" := by
  unfold matchP2bAt at h
  rcases h1 : matchWordCI cs with _ | ⟨w1, r1⟩ <;> rw [h1] at h
  · exact absurd h (by simp)
  · obtain ⟨c, l, rfl⟩ := matchWordCI_ne cs w1 r1 h1
    dsimp only at h
    repeat' split at h
    all_goals first
      | exact Option.noConfusion h
      | (injection h with h2; subst h2; apply stringMk_ne_of_ne_nil; simp)

theorem matchP3At_ne (cs : List Char) (s : String) (h : matchP3At cs = some s) :
    s ≠ "" := by
  unfold matchP3At at h
  dsimp only at h
  rcases ha : (match litPrefix "named".data cs with
      | some r => some r
      | none => litPrefix "called".data cs) with _ | r1 <;> rw [ha] at h
  · injection h
  · dsimp only at h
    rcases hs1 : r1.span isWsA with ⟨ws, r2⟩
    rw [hs1] at h
    dsimp only at h
    by_cases hw : ws.isEmpty = true
    · rw [if_pos hw] at h; injection h
    · rw [if_neg hw] at h
      generalize (match r2 with
          | q :: qs => if q = '"' || q = quoteChar then qs else r2
          | [] => r2) = r3 at h
      rcases hc : matchCapWordCS r3 with _ | ⟨w1, r4⟩ <;> rw [hc] at h
      · injection h
      · obtain ⟨c, l, rfl⟩ := matchCapWordCS_ne _ w1 r4 hc
        dsimp only at h
        rcases hs2 : r4.span isWsA with ⟨ws2, r5⟩
        rw [hs2] at h
        dsimp only at h
        by_cases hw2 : ws2.isEmpty = true
        · rw [if_pos hw2] at h
          injection h with h2
          subst h2
          exact stringMk_ne_of_ne_nil _ (by simp)
        · rw [if_neg hw2] at h
          rcases hc2 : matchCapWordCS r5 with _ | ⟨w2, r6⟩ <;> rw [hc2] at h <;>
            injection h with h2 <;> subst h2 <;>
            exact stringMk_ne_of_ne_nil _ (by simp)

theorem matchP4_ne (cs : List Char) (s : String) (h : matchP4 cs = some s) :
    s ≠ "" := by
  unfold matchP4 at h
  rcases h1 : matchCapWordCS cs with _ | ⟨w1, r1⟩ <;> rw [h1] at h
  · exact Option.noConfusion h
  · obtain ⟨c, l, rfl⟩ := matchCapWordCS_ne cs w1 r1 h1
    dsimp only at h
    split at h
    · rename_i r heq
      injection h with h2
      subst h2
      repeat' split at heq
      all_goals first
        | exact Option.noConfusion heq
        | (injection heq with h3; rw [← h3]; apply stringMk_ne_of_ne_nil; simp)
    · rename_i heq
      repeat' split at h
      all_goals first
        | exact Option.noConfusion h
        | (injection h with h2; subst h2; apply stringMk_ne_of_ne_nil; simp)

theorem extractBrandName_ne (prompt : String) (b : String)
    (h : extractBrandName prompt = some b) : b ≠ "" := by
  unfold extractBrandName at h
  rcases h1 : searchStr matchP1At prompt.data with _ | s1 <;> rw [h1] at h
  case _ =>
    rcases h2 : searchStr matchP2At prompt.data with _ | s2 <;> rw [h2] at h
    case _ =>
      rcases h3 : searchStr matchP3At prompt.data with _ | s3 <;> rw [h3] at h
      case _ =>
        rcases h4 : matchP4 prompt.data with _ | s4 <;> rw [h4] at h
        case _ =>
          dsimp only at h
          have hmem : b ∈ (findCapPairs prompt).filter
              (fun c => !brandCommonWords.contains c && c.length > 2) := by
            exact List.mem_of_mem_head? h
          have hp := (List.mem_filter.mp hmem).2
          rw [Bool.and_eq_true] at hp
          have hlen : b.length > 2 := by
            have := hp.2
            simpa using this
          intro hb
          rw [hb] at hlen
          simp at hlen
        case _ =>
          cases h
          exact matchP4_ne prompt.data _ h4
      case _ =>
        cases h
        exact searchStr_prop matchP3At (fun s => s ≠ "") matchP3At_ne prompt.data _ h3
    case _ =>
      rcases h2b : searchStr matchP2bAt prompt.data with _ | s2b <;> rw [h2b] at h <;> cases h
      · exact searchStr_prop matchP2At (fun s => s ≠ "") matchP2At_ne prompt.data _ h2
      · exact searchStr_prop matchP2bAt (fun s => s ≠ "") matchP2bAt_ne prompt.data _ h2b
  case _ =>
    cases h
    exact searchStr_prop matchP1At (fun s => s ≠ "") matchP1At_ne prompt.data _ h1

/-! ## Copy nonemptiness and the category fallback -/

theorem extractOffer_text_ne (pl : String) (o : Offer)
    (h : extractOffer pl = some o) : o.text ≠ "" := by
  unfold extractOffer at h
  rcases h1 : searchStr matchPctAt pl.data with _ | d <;> rw [h1] at h
  case some =>
    injection h with h2
    subst h2
    exact append_ne_right _ _ (by decide)
  dsimp only at h
  rcases h2 : searchStr matchFlatAt pl.data with _ | d <;> rw [h2] at h
  case some =>
    injection h with h3
    subst h3
    exact append_ne_right _ _ (by decide)
  dsimp only at h
  by_cases hf : pyIn "free" pl = true
  · rw [if_pos hf] at h
    rcases h3 : searchStr matchFreeAt pl.data with _ | w <;> rw [h3] at h
    · dsimp only at h
      by_cases hs : pyIn "sale" pl = true
      · rw [if_pos hs] at h
        injection h with h4
        subst h4
        decide
      · rw [if_neg hs] at h
        exact Option.noConfusion h
    · injection h with h4
      subst h4
      exact append_ne_left _ _ (by decide)
  · rw [if_neg hf] at h
    by_cases hs : pyIn "sale" pl = true
    · rw [if_pos hs] at h
      injection h with h4
      subst h4
      decide
    · rw [if_neg hs] at h
      exact Option.noConfusion h

theorem businessType_general (pl : String) (h : noCategoryKeyword pl) :
    determineBusinessType pl = "general_business" := by
  have hf : businessIndicators.find? (fun e => e.2.any (fun kw => pyIn kw pl)) = none := by
    rw [List.find?_eq_none]
    intro e he hcon
    rw [List.any_eq_true] at hcon
    obtain ⟨kw, hkw, hpy⟩ := hcon
    have h2 := (List.all_eq_true.mp h) e he
    have h3 := (List.all_eq_true.mp h2) kw hkw
    rw [hpy] at h3
    exact absurd h3 (by decide)
  unfold determineBusinessType
  rw [hf]

theorem headlineBank_ne_nil (a : Analysis) (b : String) : headlineBank a b ≠ [] := by
  unfold headlineBank
  split_ifs <;> first
    | (rcases hl : a.locality with _ | loc <;> simp)
    | simp

theorem headlineBank_ne (a : Analysis) (b : String) (hb : b ≠ "") :
    ∀ s ∈ headlineBank a b, s ≠ "" := by
  intro s hs
  unfold headlineBank at hs
  split_ifs at hs
  all_goals try (rcases hl : a.locality with _ | loc <;> rw [hl] at hs <;> dsimp only at hs)
  all_goals simp only [List.mem_cons, List.not_mem_nil, or_false] at hs
  all_goals first
    | (rcases hs with rfl | rfl | rfl | rfl)
    | (rcases hs with rfl | rfl | rfl)
  all_goals repeat' apply append_ne_left
  all_goals first | exact hb | decide

theorem copy_cta_ne (seed : ℤ) (a : Analysis) :
    (writeContextualCopy seed a).cta ≠ "" := by
  unfold writeContextualCopy
  dsimp only
  split_ifs <;> exact seededPick_ne_empty _ _ _ (by decide) (by decide)

theorem copy_headline_ne (seed : ℤ) (σ : List String → List String) (prompt : String) :
    (writeContextualCopy seed (analysisOf σ prompt)).headline ≠ "" := by
  have hod : (analysisOf σ prompt).offer_details = extractOffer (pyLower prompt) := rfl
  have hbn : (analysisOf σ prompt).brand_name = extractBrandName prompt := rfl
  unfold writeContextualCopy
  dsimp only
  have fallback : ∀ u : ℤ,
      (match (analysisOf σ prompt).brand_name with
       | some b => seededPick u (headlineBank (analysisOf σ prompt) b) 300
       | none =>
         match (analysisOf σ prompt).unique_keywords with
         | kw :: _ =>
           if (analysisOf σ prompt).business_type == "retail_electronics" then
             "Your " ++ pyCapitalize kw ++ " Destination"
           else if (analysisOf σ prompt).business_type == "food_restaurant" then
             "Taste the Best " ++ pyCapitalize kw
           else "Quality " ++ pyCapitalize kw
         | [] =>
           match (analysisOf σ prompt).locality with
           | some loc => "Serving " ++ loc ++ "\nWith Excellence"
           | none => "Quality You Deserve") ≠ "" := by
    intro u
    rcases hbnc : (analysisOf σ prompt).brand_name with _ | b <;> dsimp only
    · rcases hkw : (analysisOf σ prompt).unique_keywords with _ | ⟨kw, rest⟩ <;> dsimp only
      · rcases hloc : (analysisOf σ prompt).locality with _ | loc <;> dsimp only
        · decide
        · exact append_ne_left _ _ (append_ne_left _ _ (by decide))
      · split_ifs
        · exact append_ne_left _ _ (append_ne_left _ _ (by decide))
        · exact append_ne_left _ _ (by decide)
        · exact append_ne_left _ _ (by decide)
    · have hb : b ≠ "" := extractBrandName_ne prompt b (hbn.symm.trans hbnc)
      exact seededPick_ne_empty _ _ _ (headlineBank_ne_nil _ _) (headlineBank_ne _ _ hb)
  by_cases hho : (analysisOf σ prompt).has_offer = true
  · rw [if_pos hho]
    rcases hodc : (analysisOf σ prompt).offer_details with _ | o <;> dsimp only
    · exact fallback seed
    · rcases hbnc : (analysisOf σ prompt).brand_name with _ | b <;> dsimp only
      · exact extractOffer_text_ne _ _ (hod.symm.trans hodc)
      · exact append_ne_right _ _ (extractOffer_text_ne _ _ (hod.symm.trans hodc))
  · rw [if_neg hho]
    dsimp only
    exact fallback seed

/-- C9 counterexample: the prompt "Zxqv bnmp" contains no keyword of the
business-category table, and the extracted business type is the literal
string "general_business", not "general" as the claim states. -/
theorem category_fallback_counterexample :
    noCategoryKeyword (pyLower "Zxqv bnmp") ∧
    (analysisOf id "Zxqv bnmp").business_type = "general_business" ∧
    (analysisOf id "Zxqv bnmp").business_type ≠ "general" := by decide

/-- C9 (amended): for every prompt containing no recognizable category
keyword, extraction returns the business type "general_business" (not
"general"), and copy composition still terminates in hard-coded defaults
producing a non-empty headline and a non-empty CTA. -/
theorem category_fallback (σ : List String → List String) (seed : ℤ) (prompt : String)
    (h : noCategoryKeyword (pyLower prompt)) :
    (analysisOf σ prompt).business_type = "general_business" ∧
    (writeContextualCopy seed (analysisOf σ prompt)).headline ≠ "" ∧
    (writeContextualCopy seed (analysisOf σ prompt)).cta ≠ "" := by
  refine ⟨?_, copy_headline_ne seed σ prompt, copy_cta_ne seed _⟩
  show determineBusinessType (pyLower prompt) = "general_business"
  exact businessType_general _ h

/-- Witness for C9 at the concrete keyword-free prompt "Zxqv bnmp". -/
theorem category_fallback_witness :
    (analysisOf id "Zxqv bnmp").business_type = "general_business" ∧
    (writeContextualCopy 0 (analysisOf id "Zxqv bnmp")).headline ≠ "" ∧
    (writeContextualCopy 0 (analysisOf id "Zxqv bnmp")).cta ≠ "" :=
  category_fallback id 0 "Zxqv bnmp" (by decide)

/-! ## Brand substitution and offer extraction on concrete prompts -/

/-- C4 counterexample: for "Visit Bright Bean Coffee today" the brand scanner
returns "Visit Bright" (pattern 5 accepts the leading capitalized pair), so
the composed headline does NOT contain "Bright Bean". -/
theorem brand_substitution_counterexample :
    (analysisOf id promptVisit).business_type = "food_restaurant" ∧
    (analysisOf id promptVisit).brand_name = some "Visit Bright" ∧
    pyIn "Bright Bean"
      (writeContextualCopy seedVisit (analysisOf id promptVisit)).headline = false := by
  decide

/-- C4 (amended): for the food-category prompt "Visit Bright Bean Coffee
today" and every seed, the composed headline is non-empty and contains the
substring "Visit Bright" (the extracted brand), never "Bright Bean". -/
theorem brand_substitution (seed : ℤ) :
    (writeContextualCopy seed (analysisOf id promptVisit)).headline ≠ "" ∧
    pyIn "Visit Bright"
      (writeContextualCopy seed (analysisOf id promptVisit)).headline = true ∧
    pyIn "Bright Bean"
      (writeContextualCopy seed (analysisOf id promptVisit)).headline = false := by
  have heq : (writeContextualCopy seed (analysisOf id promptVisit)).headline =
      seededPick seed (headlineBank (analysisOf id promptVisit) "Visit Bright") 300 := rfl
  have hbank : headlineBank (analysisOf id promptVisit) "Visit Bright" =
      ["Visit Bright\nFlavors You'll Love",
       "Dine at Visit Bright\nFreshly Made, Always Delicious",
       "Visit Bright\nWhere Taste Meets Quality"] := by decide
  have hmem := seededPick_mem seed
    (headlineBank (analysisOf id promptVisit) "Visit Bright") 300
    (headlineBank_ne_nil _ _)
  rw [hbank] at hmem
  simp only [List.mem_cons, List.not_mem_nil, or_false] at hmem
  rw [heq, hbank]
  rcases hmem with h | h | h <;> rw [h] <;> decide

/-- C5: offer extraction tries percentage, flat currency, freebie, then
generic sale, in that priority order, the first match winning; for
"Get 20% off everything today" it reports an offer of kind percentage with
value 20, and `_has_offer` is true. -/
theorem offer_priority :
    (analysisOf id promptOffer).has_offer = true ∧
    (analysisOf id promptOffer).offer_details =
      some ⟨"percentage", some (OfferVal.ival 20), "20% OFF"⟩ ∧
    extractOffer "free dessert with 30% off mega sale" =
      some ⟨"percentage", some (OfferVal.ival 30), "30% OFF"⟩ ∧
    extractOffer "rs 500 off plus free delivery at the sale" =
      some ⟨"flat", some (OfferVal.ival 500), "₹500 OFF"⟩ ∧
    extractOffer "free dessert at the big sale" =
      some ⟨"freebie", some (OfferVal.sval "dessert"), "FREE DESSERT"⟩ ∧
    extractOffer "mega clearance sale" = some ⟨"sale", none, "SALE"⟩ := by
  decide

/-! ## Projection to Fabric.js -/

/-- C8 counterexample: a textbox carries no height key, so two blueprints
differing only in a text element height project to the same Fabric scene;
the pixel output cannot reproduce the original percentage geometry. -/
theorem projection_round_trip_counterexample :
    blueprintToFabric (fun _ => 0) (fun _ => 0) (rtBlueprint 10) =
      blueprintToFabric (fun _ => 0) (fun _ => 0) (rtBlueprint 20) ∧
    rtBlueprint 10 ≠ rtBlueprint 20 := by decide

/-- C8 (amended): projection resolves each element by left = x percent of
canvas width, top = y percent of canvas height, width = w percent of width,
height = h percent of height, circles using min(width, height) / 2 as
radius; at 1080 x 1080 the emitted pixel fields recompute exactly (so within
1e-6) to the original percentages - for rects all four fields, for circles
the position and min(w, h) through the radius, and for textboxes only
position and width, because the conversion emits no textbox height. -/
theorem projection_round_trip (e : Element) (f : FabricObj)
    (h : elementToFabric 1080 1080 e = some f) :
    (∀ id left top w text fs ff fw fill ta lh cs op,
       f = FabricObj.textbox id left top w text fs ff fw fill ta lh cs op →
       left * 100 / 1080 = e.x ∧ top * 100 / 1080 = e.y ∧
       w * 100 / 1080 = e.w) ∧
    (∀ id left top fill op r,
       f = FabricObj.circle id left top fill op r →
       left * 100 / 1080 = e.x ∧ top * 100 / 1080 = e.y ∧
       2 * r * 100 / 1080 = min e.w e.h) ∧
    (∀ id left top fill op w hh rx ry,
       f = FabricObj.rect id left top fill op w hh rx ry →
       left * 100 / 1080 = e.x ∧ top * 100 / 1080 = e.y ∧
       w * 100 / 1080 = e.w ∧ hh * 100 / 1080 = e.h) := by
  unfold elementToFabric at h
  dsimp only at h
  split_ifs at h with h1 h2 h3
  · injection h with hf
    subst hf
    refine ⟨?_, ?_, ?_⟩
    · intro id left top w text fs ff fw fill ta lh cs op heq
      injection heq with q1 q2 q3 q4 q5 q6 q7 q8 q9 q10 q11 q12 q13
      subst q2; subst q3; subst q4
      refine ⟨by field_simp, by field_simp, by field_simp⟩
    · intro id left top fill op r heq
      exact FabricObj.noConfusion heq
    · intro id left top fill op w hh rx ry heq
      exact FabricObj.noConfusion heq
  · injection h with hf
    subst hf
    refine ⟨?_, ?_, ?_⟩
    · intro id left top w text fs ff fw fill ta lh cs op heq
      exact FabricObj.noConfusion heq
    · intro id left top fill op r heq
      injection heq with q1 q2 q3 q4 q5 q6
      subst q2; subst q3; subst q6
      refine ⟨by field_simp, by field_simp, ?_⟩
      rcases le_total e.w e.h with hwh | hwh
      · rw [min_eq_left (by linarith : e.w / 100 * 1080 ≤ e.h / 100 * 1080),
           min_eq_left hwh]
        field_simp
        ring
      · rw [min_eq_right (by linarith : e.h / 100 * 1080 ≤ e.w / 100 * 1080),
           min_eq_right hwh]
        field_simp
        ring
    · intro id left top fill op w hh rx ry heq
      exact FabricObj.noConfusion heq
  · injection h with hf
    subst hf
    refine ⟨?_, ?_, ?_⟩
    · intro id left top w text fs ff fw fill ta lh cs op heq
      exact FabricObj.noConfusion heq
    · intro id left top fill op r heq
      exact FabricObj.noConfusion heq
    · intro id left top fill op w hh rx ry heq
      injection heq with q1 q2 q3 q4 q5 q6 q7 q8 q9
      subst q2; subst q3; subst q6; subst q7
      refine ⟨by field_simp, by field_simp, by field_simp, by field_simp⟩

/-- Witness for C8 at a concrete text element: elementToFabric places it at
left 108, top 216, width 540, and the pixel values recompute to the original
percentages. -/
theorem projection_round_trip_witness :
    108 * 100 / 1080 = (rtTextElem 10).x ∧ 216 * 100 / 1080 = (rtTextElem 10).y ∧
    540 * 100 / 1080 = (rtTextElem 10).w :=
  (projection_round_trip (rtTextElem 10)
      (FabricObj.textbox "headline" 108 216 540 "Hello" 48 "Montserrat" 800
        "#ffffff" "left" 0.95 0 1)
      (by decide)).1
    "headline" 108 216 540 "Hello" 48 "Montserrat" 800 "#ffffff" "left" 0.95 0 1 rfl

/-! ## Ambient nondeterminism of the pipeline -/

set_option maxHeartbeats 2000000 in
/-- C1: the pipeline output is NOT independent of ambient process state.
Two runs on the same prompt with the same SHA-256 seed but different
per-process string-hash salts (the ambient parameter `ph`, CPython
PYTHONHASHSEED) give different blueprints, because `_invent_layout` keys its
jitter offsets on `hash(zone_name)`; likewise the unique-keyword list
depends on the `list(set(...))` iteration order (the ambient parameter `σ`),
not only on the prompt text and fixed call-site offsets. -/
theorem determinism_salt_dependent :
    generate seed50 phZero id prompt50 "instagram" "post" ≠
      generate seed50 phOne id prompt50 "instagram" "post" ∧
    uniqueKeywords id (pyLower "fresh organic bread") ≠
      uniqueKeywords List.reverse (pyLower "fresh organic bread") := by decide

/-! ## Element geometry bounds -/

theorem mem_numberIds (es : List Element) (e : Element) (h : e ∈ numberIds es) :
    ∃ e0 ∈ es, e.x = e0.x ∧ e.y = e0.y ∧ e.w = e0.w ∧ e.h = e0.h := by
  unfold numberIds at h
  rw [List.mapIdx_eq_enum_map] at h
  obtain ⟨p, hp, he⟩ := List.mem_map.mp h
  obtain ⟨i, x⟩ := p
  obtain ⟨hi, hx⟩ := List.mem_enum hp
  refine ⟨x, ?_, ?_, ?_, ?_, ?_⟩
  · rw [hx]; apply List.getElem_mem
  all_goals rw [← he]
  all_goals rfl

theorem lookupZone_mem (zones : List (String × Zone)) (name : String) (z : Zone)
    (h : lookupZone zones name = some z) : (name, z) ∈ zones := by
  unfold lookupZone at h
  rcases hf : zones.find? (fun e => e.1 == name) with _ | e <;> rw [hf] at h
  · exact Option.noConfusion h
  · injection h with h2
    have hmem := List.mem_of_find?_eq_some hf
    have hp := List.find?_some hf
    simp only [beq_iff_eq] at hp
    rcases e with ⟨n, zz⟩
    dsimp only at hp h2
    subst hp
    subst h2
    exact hmem

theorem inventLayout_zones_ok (seed : ℤ) (ph : String → ℤ) (a : Analysis) :
    ∀ nz ∈ (inventLayout seed ph a).zones, ZoneOK nz := by
  intro nz hnz
  unfold inventLayout at hnz
  dsimp only at hnz
  split_ifs at hnz
  · rcases List.mem_append.mp hnz with h | h
    · exact (layoutContentZones_spec seed ph a nz h).1
    · simp only [List.mem_cons, List.not_mem_nil, or_false] at h
      subst h
      unfold ZoneOK
      refine ⟨?_, ?_, ?_, ?_, ?_, ?_, ?_, ?_, ?_, ?_, ?_⟩ <;>
        first
          | decide
          | (intro hc; exact absurd hc (by decide))
  · exact (layoutContentZones_spec seed ph a nz hnz).1

theorem zoneElements_geom (seed : ℤ) (al : String) (colors : Palette) (copy : Copy)
    (idx : ℕ) (name : String) (z : Zone) (hz : ZoneOK (name, z)) :
    ∀ e ∈ zoneElements seed al colors copy idx name z, ElemGeomOK e := by
  obtain ⟨hx1, hx2, hw1, hw2, hxw, hh1, hh2, hy1, hy2, hoff, hbh⟩ := hz
  dsimp only at hx1 hx2 hw1 hw2 hxw hh1 hh2 hy1 hy2 hoff hbh
  have hbw0 : (0:ℚ) < min 40 z.width := lt_min (by norm_num) (by linarith)
  have hbwz : min (40:ℚ) z.width ≤ z.width := min_le_right _ _
  have hbw40 : min (40:ℚ) z.width ≤ 40 := min_le_left _ _
  have hcw0 : (0:ℚ) < min 35 z.width := lt_min (by norm_num) (by linarith)
  have hcwz : min (35:ℚ) z.width ≤ z.width := min_le_right _ _
  have hcw35 : min (35:ℚ) z.width ≤ 35 := min_le_left _ _
  intro e he
  unfold zoneElements at he
  dsimp only at he
  by_cases hon : (name == "offer") = true
  · rw [if_pos hon] at he
    have h25 : z.height = 25 := hoff (by simpa using hon)
    split_ifs at he
    all_goals simp only [List.mem_cons, List.not_mem_nil, or_false] at he
    all_goals first
      | (rcases he with rfl | rfl)
      | (rcases he with rfl)
    all_goals simp only [ElemGeomOK, mkShape, mkText]
    all_goals refine ⟨?_, ?_, ?_, ?_, ?_, ?_, ?_, ?_⟩
    all_goals linarith
  · rw [if_neg hon] at he
    split_ifs at he
    all_goals simp only [List.mem_cons, List.not_mem_nil, or_false] at he
    all_goals first
      | (rcases he with rfl | rfl)
      | (rcases he with rfl)
    all_goals simp only [ElemGeomOK, mkShape, mkText]
    all_goals refine ⟨?_, ?_, ?_, ?_, ?_, ?_, ?_, ?_⟩
    all_goals linarith

theorem contentElements_geom (seed : ℤ) (al : String) (colors : Palette) (copy : Copy)
    (zones : List (String × Zone)) (hier : List String)
    (hz : ∀ nz ∈ zones, ZoneOK nz) :
    ∀ e ∈ contentElements seed al colors copy zones hier, ElemGeomOK e := by
  intro e he
  unfold contentElements at he
  rw [List.mem_flatten] at he
  obtain ⟨l, hl, hel⟩ := he
  rw [List.mem_map] at hl
  obtain ⟨p, hp, rfl⟩ := hl
  try dsimp only at hel
  rcases hlz : lookupZone zones p.2 with _ | z <;> rw [hlz] at hel
  · simp at hel
  · exact zoneElements_geom seed al colors copy p.1 p.2 z
      (hz _ (lookupZone_mem zones p.2 z hlz)) e hel

theorem dividerElements_geom (al : String) (colors : Palette)
    (zones : List (String × Zone)) (hz : ∀ nz ∈ zones, ZoneOK nz) :
    ∀ e ∈ dividerElements al colors zones, ElemGeomOK e := by
  intro e he
  unfold dividerElements at he
  by_cases hcond :
      ((lookupZone zones "headline").isSome || (lookupZone zones "brand").isSome) = true
  · rw [if_pos hcond] at he
    rcases hor : (lookupZone zones "brand").orElse (fun x => lookupZone zones "headline")
      with _ | ref <;> rw [hor] at he
    · simp at he
    · dsimp only at he
      have href : ("brand", ref) ∈ zones ∨ ("headline", ref) ∈ zones := by
        rcases hb : lookupZone zones "brand" with _ | zb <;> rw [hb] at hor <;>
          simp only [Option.orElse] at hor
        · right
          exact lookupZone_mem zones "headline" ref hor
        · left
          injection hor with h2
          subst h2
          exact lookupZone_mem zones "brand" zb hb
      have hfacts : 5 ≤ ref.x ∧ ref.x ≤ 30 ∧ 65 ≤ ref.width ∧ ref.width ≤ 90 ∧
          ref.x + ref.width ≤ 95 ∧ 0 < ref.height ∧ 8 ≤ ref.y ∧
          ref.y + ref.height ≤ 76 := by
        rcases href with hm | hm <;>
          obtain ⟨a1, a2, a3, a4, a5, a6, a7, a8, a9, a10, a11⟩ := hz _ hm <;>
          dsimp only at a1 a2 a3 a4 a5 a6 a7 a8 a9 a10 a11 <;>
          exact ⟨a1, a2, a3, a4, a5, a6, a8, a11 (by simp)⟩
      obtain ⟨b1, b2, b3, b4, b5, b6, b7, b8⟩ := hfacts
      simp only [List.mem_cons, List.not_mem_nil, or_false] at he
      subst he
      simp only [ElemGeomOK, mkShape]
      split_ifs
      all_goals refine ⟨?_, ?_, ?_, ?_, ?_, ?_, ?_, ?_⟩
      all_goals first | linarith | norm_num
  · rw [if_neg hcond] at he
    simp at he

theorem constructElements_geom (seed : ℤ) (a : Analysis) (L : Layout)
    (colors : Palette) (copy : Copy) (hz : ∀ nz ∈ L.zones, ZoneOK nz) :
    ∀ e ∈ constructElements seed a L colors copy, ElemGeomOK e := by
  intro e he
  unfold constructElements at he
  dsimp only at he
  obtain ⟨e0, he0, hex, hey, hew, heh⟩ := mem_numberIds _ e he
  have h0 : ElemGeomOK e0 := by
    rcases List.mem_append.mp he0 with h | h
    swap
    · exact dividerElements_geom L.alignment colors L.zones hz e0 h
    rcases List.mem_append.mp h with h | h
    swap
    · exact contentElements_geom seed L.alignment colors copy L.zones _ hz e0 h
    rcases List.mem_append.mp h with h | h
    · split_ifs at h
      · simp only [List.mem_cons, List.not_mem_nil, or_false] at h
        obtain hb1 := seededIntQ_bounds seed (-20) 20 400 (by norm_num)
        obtain hb2 := seededIntQ_bounds seed (-10) 30 401 (by norm_num)
        obtain hb3 := seededIntQ_bounds seed 50 90 402 (by norm_num)
        obtain hb4 := seededIntQ_bounds seed 40 80 403 (by norm_num)
        push_cast at hb1 hb2 hb3 hb4
        rcases h with rfl | rfl <;> simp only [ElemGeomOK, mkShape] <;>
          refine ⟨?_, ?_, ?_, ?_, ?_, ?_, ?_, ?_⟩ <;>
          first
            | linarith [hb1.1, hb1.2, hb2.1, hb2.2, hb3.1, hb3.2, hb4.1, hb4.2]
            | norm_num
      · simp at h
    · split_ifs at h
      · simp only [List.mem_cons, List.not_mem_nil, or_false] at h
        rcases h with rfl | rfl <;> simp only [ElemGeomOK, mkShape] <;>
          refine ⟨?_, ?_, ?_, ?_, ?_, ?_, ?_, ?_⟩ <;> norm_num
      · rw [List.mem_flatMap] at h
        obtain ⟨i, hi, h⟩ := h
        rw [List.mem_map] at h
        obtain ⟨j, hj, rfl⟩ := h
        rw [List.mem_range] at hi hj
        have hi2 : (i:ℚ) ≤ 2 := by exact_mod_cast Nat.lt_succ_iff.mp hi
        have hj2 : (j:ℚ) ≤ 2 := by exact_mod_cast Nat.lt_succ_iff.mp hj
        have hi0 : (0:ℚ) ≤ (i:ℚ) := by positivity
        have hj0 : (0:ℚ) ≤ (j:ℚ) := by positivity
        simp only [ElemGeomOK, mkShape]
        refine ⟨?_, ?_, ?_, ?_, ?_, ?_, ?_, ?_⟩ <;> first | linarith | norm_num
      · simp only [List.mem_cons, List.not_mem_nil, or_false] at h
        obtain hb5 := seededIntQ_bounds seed 30 50 405 (by norm_num)
        push_cast at hb5
        subst h
        simp only [ElemGeomOK, mkShape]
        refine ⟨?_, ?_, ?_, ?_, ?_, ?_, ?_, ?_⟩ <;>
          first | linarith [hb5.1, hb5.2] | norm_num
      · simp at h
  unfold ElemGeomOK at h0 ⊢
  rw [hex, hey, hew, heh]
  exact h0

/-- C3 counterexample: for the prompt "Amazing new coffee shop opening soon
in your neighborhood today" the first decorative glow circle sits at
negative x (the glow jitter is drawn from [-20, 20]), so element x
coordinates are not confined to [0, 100]. -/
theorem element_bounds_counterexample :
    ∃ e ∈ (generate seedAmazing phZero id promptAmazing "instagram" "post").elements,
      e.x < 0 := by decide

/-- C3 (amended): for every seed, ambient hash, set order, prompt, platform
and format, every element in the assembled element list (decorative glows,
corner accents, badges, text, CTA, divider) has x in [-20, 100], y in
[-10, 105] (glow jitter is drawn from x in [-20, 20] and y in [-10, 30],
and a trailing text zone can start below y = 100 in the documented overflow
configuration), and width and height in (0, 100]. -/
theorem element_bounds_amended (seed : ℤ) (ph : String → ℤ)
    (σ : List String → List String) (prompt platform format : String) :
    ∀ e ∈ (generate seed ph σ prompt platform format).elements, ElemGeomOK e := by
  intro e he
  exact constructElements_geom seed (analysisOf σ prompt)
    (inventLayout seed ph (analysisOf σ prompt))
    (createCustomPalette seed (analysisOf σ prompt))
    (writeContextualCopy seed (analysisOf σ prompt))
    (inventLayout_zones_ok seed ph (analysisOf σ prompt)) e he

/-- Witness for C3: the first glow circle of the blueprint generated for
promptAmazing satisfies the amended bounds. -/
theorem element_bounds_amended_witness : ElemGeomOK witnessGlow :=
  element_bounds_amended seedAmazing phZero id promptAmazing "instagram" "post"
    witnessGlow (by decide)

end CreativeDirector